import Mathlib

/-!
# Verification of the matrix-rust-sdk crypto core

A shallow embedding, in Lean 4, of the parts of the `matrix-sdk-crypto`
crate that the specification's claims talk about:

* the SAS short-authentication-string derivations
  (`verification/sas/helpers.rs`),
* the outbound Megolm group session lifecycle
  (`olm/group_sessions/outbound.rs`),
* inbound Megolm session decryption and export
  (`olm/group_sessions/inbound.rs`),
* the pairwise Olm session manager
  (`session_manager/sessions.rs`).

Rust `BTreeMap`/`DashMap` values are modelled as association lists with
replace-on-insert semantics, `DashSet` values as lists with set-style
insertion, `u8`/`u16`/`u32`/`u64` as `Nat` (every spot where the Rust
arithmetic could wrap is noted at the definition; none of the embedded
computations can overflow for the in-range inputs the theorems quantify
over), times and durations as `Nat` millisecond / second counts, and the
opaque cryptographic primitives (Megolm ratchet, Olm session creation)
as explicit oracle functions carried in the state.
-/

set_option maxHeartbeats 1000000

namespace MatrixSdkCrypto

/-! ## Association-list maps and list sets

`BTreeMap` and `DashMap` are keyed maps; we model them as `List (K × V)`
where `ainsert` replaces the binding of an existing key, `aremove` drops
every binding of the key (keys are unique in the Rust maps, so dropping
all bindings of a key is exactly `DashMap::remove` / `BTreeMap::remove`),
and `alookup` finds the first binding.  `DashSet` is a `List` with
membership-checking insertion. -/

def alookup {K V : Type} [DecidableEq K] (k : K) : List (K × V) → Option V
  | [] => none
  | (k', v) :: rest => if k' = k then some v else alookup k rest

def ainsert {K V : Type} [DecidableEq K] (k : K) (v : V) : List (K × V) → List (K × V)
  | [] => [(k, v)]
  | (k', v') :: rest => if k' = k then (k, v) :: rest else (k', v') :: ainsert k v rest

def aremove {K V : Type} [DecidableEq K] (k : K) (l : List (K × V)) : List (K × V) :=
  l.filter (fun p => p.1 ≠ k)

def sinsert {K : Type} [DecidableEq K] (x : K) (l : List K) : List K :=
  if x ∈ l then l else x :: l

def sremove {K : Type} [DecidableEq K] (x : K) (l : List K) : List K :=
  l.filter (fun y => y ≠ x)

@[simp] theorem alookup_nil {K V : Type} [DecidableEq K] (k : K) :
    alookup k ([] : List (K × V)) = none := rfl

@[simp] theorem alookup_cons {K V : Type} [DecidableEq K] (k k' : K) (v : V)
    (l : List (K × V)) :
    alookup k ((k', v) :: l) = if k' = k then some v else alookup k l := rfl

theorem alookup_ainsert {K V : Type} [DecidableEq K] (k : K) (v : V)
    (l : List (K × V)) : alookup k (ainsert k v l) = some v := by
  induction l with
  | nil => simp [ainsert]
  | cons hd tl ih =>
    obtain ⟨k', v'⟩ := hd
    by_cases h : k' = k <;> simp [ainsert, h, ih]

theorem alookup_ainsert_ne {K V : Type} [DecidableEq K] (k k' : K) (v : V)
    (l : List (K × V)) (h : k ≠ k') :
    alookup k' (ainsert k v l) = alookup k' l := by
  induction l with
  | nil => simp [ainsert, h]
  | cons hd tl ih =>
    obtain ⟨k'', v''⟩ := hd
    by_cases h2 : k'' = k
    · subst h2
      simp [ainsert, h]
    · simp [ainsert, h2, ih]

theorem alookup_aremove {K V : Type} [DecidableEq K] (k : K) (l : List (K × V)) :
    alookup k (aremove k l) = none := by
  induction l with
  | nil => simp [aremove]
  | cons hd tl ih =>
    obtain ⟨k', v'⟩ := hd
    by_cases h : k' = k <;> simp_all [aremove, List.filter, h]

theorem alookup_aremove_ne {K V : Type} [DecidableEq K] (k k' : K)
    (l : List (K × V)) (h : k ≠ k') :
    alookup k' (aremove k l) = alookup k' l := by
  induction l with
  | nil => simp [aremove]
  | cons hd tl ih =>
    obtain ⟨k'', v''⟩ := hd
    by_cases h2 : k'' = k
    · subst h2
      simp_all [aremove, List.filter, Ne.symm h]
    · by_cases h3 : k'' = k' <;> simp_all [aremove, List.filter, h2, h3]

theorem mem_sinsert {K : Type} [DecidableEq K] (x y : K) (l : List K) :
    y ∈ sinsert x l ↔ y = x ∨ y ∈ l := by
  unfold sinsert
  by_cases h : x ∈ l
  · simp only [if_pos h]
    constructor
    · exact fun hy => Or.inr hy
    · rintro (rfl | hy) <;> [exact h; exact hy]
  · simp [if_neg h]

/-! ## SAS short-authentication-string derivations

From `src/crates/matrix-sdk-crypto/src/verification/sas/helpers.rs`. -/

/-- The spec-mandated 64-entry emoji table, `emoji_from_index`.
Indices outside `0..=63` make the Rust function panic; we return `none`. -/
def emoji_from_index (index : Nat) : Option (String × String) :=
  match index with
  | 0 => some ("🐶", "Dog")
  | 1 => some ("🐱", "Cat")
  | 2 => some ("🦁", "Lion")
  | 3 => some ("🐎", "Horse")
  | 4 => some ("🦄", "Unicorn")
  | 5 => some ("🐷", "Pig")
  | 6 => some ("🐘", "Elephant")
  | 7 => some ("🐰", "Rabbit")
  | 8 => some ("🐼", "Panda")
  | 9 => some ("🐓", "Rooster")
  | 10 => some ("🐧", "Penguin")
  | 11 => some ("🐢", "Turtle")
  | 12 => some ("🐟", "Fish")
  | 13 => some ("🐙", "Octopus")
  | 14 => some ("🦋", "Butterfly")
  | 15 => some ("🌷", "Flower")
  | 16 => some ("🌳", "Tree")
  | 17 => some ("🌵", "Cactus")
  | 18 => some ("🍄", "Mushroom")
  | 19 => some ("🌏", "Globe")
  | 20 => some ("🌙", "Moon")
  | 21 => some ("☁️", "Cloud")
  | 22 => some ("🔥", "Fire")
  | 23 => some ("🍌", "Banana")
  | 24 => some ("🍎", "Apple")
  | 25 => some ("🍓", "Strawberry")
  | 26 => some ("🌽", "Corn")
  | 27 => some ("🍕", "Pizza")
  | 28 => some ("🎂", "Cake")
  | 29 => some ("❤️", "Heart")
  | 30 => some ("😀", "Smiley")
  | 31 => some ("🤖", "Robot")
  | 32 => some ("🎩", "Hat")
  | 33 => some ("👓", "Glasses")
  | 34 => some ("🔧", "Spanner")
  | 35 => some ("🎅", "Santa")
  | 36 => some ("👍", "Thumbs up")
  | 37 => some ("☂️", "Umbrella")
  | 38 => some ("⌛", "Hourglass")
  | 39 => some ("⏰", "Clock")
  | 40 => some ("🎁", "Gift")
  | 41 => some ("💡", "Light Bulb")
  | 42 => some ("📕", "Book")
  | 43 => some ("✏️", "Pencil")
  | 44 => some ("📎", "Paperclip")
  | 45 => some ("✂️", "Scissors")
  | 46 => some ("🔒", "Lock")
  | 47 => some ("🔑", "Key")
  | 48 => some ("🔨", "Hammer")
  | 49 => some ("☎️", "Telephone")
  | 50 => some ("🏁", "Flag")
  | 51 => some ("🚂", "Train")
  | 52 => some ("🚲", "Bicycle")
  | 53 => some ("✈️", "Airplane")
  | 54 => some ("🚀", "Rocket")
  | 55 => some ("🏆", "Trophy")
  | 56 => some ("⚽", "Ball")
  | 57 => some ("🎸", "Guitar")
  | 58 => some ("🎺", "Trumpet")
  | 59 => some ("🔔", "Bell")
  | 60 => some ("⚓", "Anchor")
  | 61 => some ("🎧", "Headphones")
  | 62 => some ("📁", "Folder")
  | 63 => some ("📌", "Pin")
  | _ => none

/-- `bytes_to_emoji_index`: join six `u8` bytes big-endian into a `u64` and
slice the top 42 bits into seven 6-bit numbers.  The Rust arithmetic is on
`u64`; for bytes `< 256` the packed value stays below `2 ^ 48`, so plain
`Nat` arithmetic coincides with it.  The Rust function panics on inputs
shorter than six bytes; we return `[]` there.  Bytes past the sixth are
ignored, as in the Rust code. -/
def bytes_to_emoji_index (bytes : List Nat) : List Nat :=
  match bytes with
  | b0 :: b1 :: b2 :: b3 :: b4 :: b5 :: _ =>
    let num : Nat := b0 <<< 40 + b1 <<< 32 + b2 <<< 24 + b3 <<< 16 + b4 <<< 8 + b5
    [(num >>> 42) &&& 63, (num >>> 36) &&& 63, (num >>> 30) &&& 63,
     (num >>> 24) &&& 63, (num >>> 18) &&& 63, (num >>> 12) &&& 63,
     (num >>> 6) &&& 63]
  | _ => []

/-- `bytes_to_decimal`: slice five `u8` bytes into three 13-bit values and
add a 1000 offset.  The Rust arithmetic is on `u16`; every intermediate
stays below `2 ^ 16` for bytes `< 256`, so `Nat` arithmetic coincides.
The Rust function panics on short input; we return `(0, 0, 0)` there. -/
def bytes_to_decimal (bytes : List Nat) : Nat × Nat × Nat :=
  match bytes with
  | b0 :: b1 :: b2 :: b3 :: b4 :: _ =>
    let first := b0 <<< 5 ||| b1 >>> 3
    let second := (b1 &&& 0x7) <<< 10 ||| b2 <<< 2 ||| b3 >>> 6
    let third := (b3 &&& 0x3F) <<< 7 ||| b4 >>> 1
    (first + 1000, second + 1000, third + 1000)
  | _ => (0, 0, 0)

/-- Bitwise-or keeps values below a power of two. -/
theorem nat_lor_lt_pow {x y n : Nat} (hx : x < 2 ^ n) (hy : y < 2 ^ n) :
    x ||| y < 2 ^ n :=
  Nat.bitwise_lt hx hy

/-- C8: for every 6-byte input the SAS emoji derivation yields exactly seven
indices, each in `[0, 63]`; all-zero bytes give seven times index 0, which
the emoji table maps to ("🐶", "Dog"), and all-`0xFF` bytes give seven
times index 63, which maps to ("📌", "Pin"). -/
theorem sas_emoji_derivation (bytes : List Nat)
    (h6 : bytes.length = 6) (hb : ∀ x ∈ bytes, x < 256) :
    ((bytes_to_emoji_index bytes).length = 7 ∧
      ∀ i ∈ bytes_to_emoji_index bytes, i ≤ 63) ∧
    bytes_to_emoji_index [0, 0, 0, 0, 0, 0] = [0, 0, 0, 0, 0, 0, 0] ∧
    emoji_from_index 0 = some ("🐶", "Dog") ∧
    bytes_to_emoji_index [255, 255, 255, 255, 255, 255] =
      [63, 63, 63, 63, 63, 63, 63] ∧
    emoji_from_index 63 = some ("📌", "Pin") := by
  refine ⟨?_, by decide, rfl, by decide, rfl⟩
  match bytes, h6 with
  | [b0, b1, b2, b3, b4, b5], _ =>
    refine ⟨rfl, ?_⟩
    intro i hi
    simp only [bytes_to_emoji_index, List.mem_cons, List.not_mem_nil, or_false] at hi
    rcases hi with rfl | rfl | rfl | rfl | rfl | rfl | rfl <;>
      exact Nat.and_le_right

/-- Closed-form witness for `sas_emoji_derivation` at the all-zero input. -/
theorem sas_emoji_derivation_witness :
    ((bytes_to_emoji_index [0, 0, 0, 0, 0, 0]).length = 7 ∧
      ∀ i ∈ bytes_to_emoji_index [0, 0, 0, 0, 0, 0], i ≤ 63) ∧
    bytes_to_emoji_index [0, 0, 0, 0, 0, 0] = [0, 0, 0, 0, 0, 0, 0] ∧
    emoji_from_index 0 = some ("🐶", "Dog") ∧
    bytes_to_emoji_index [255, 255, 255, 255, 255, 255] =
      [63, 63, 63, 63, 63, 63, 63] ∧
    emoji_from_index 63 = some ("📌", "Pin") :=
  sas_emoji_derivation [0, 0, 0, 0, 0, 0] rfl (by decide)

/-- C9: for every 5-byte input the SAS decimal derivation yields three
values in `[1000, 9191]`; all-zero bytes give `(1000, 1000, 1000)` and
all-`0xFF` bytes give `(9191, 9191, 9191)`. -/
theorem sas_decimal_derivation (bytes : List Nat)
    (h5 : bytes.length = 5) (hb : ∀ x ∈ bytes, x < 256) :
    (1000 ≤ (bytes_to_decimal bytes).1 ∧ (bytes_to_decimal bytes).1 ≤ 9191 ∧
     1000 ≤ (bytes_to_decimal bytes).2.1 ∧ (bytes_to_decimal bytes).2.1 ≤ 9191 ∧
     1000 ≤ (bytes_to_decimal bytes).2.2 ∧ (bytes_to_decimal bytes).2.2 ≤ 9191) ∧
    bytes_to_decimal [0, 0, 0, 0, 0] = (1000, 1000, 1000) ∧
    bytes_to_decimal [255, 255, 255, 255, 255] = (9191, 9191, 9191) := by
  refine ⟨?_, by decide, by decide⟩
  match bytes, h5 with
  | [b0, b1, b2, b3, b4], _ =>
    have hb0 : b0 < 256 := hb b0 (by simp)
    have hb1 : b1 < 256 := hb b1 (by simp)
    have hb2 : b2 < 256 := hb b2 (by simp)
    have hb3 : b3 < 256 := hb b3 (by simp)
    have hb4 : b4 < 256 := hb b4 (by simp)
    have pow13 : (8192 : Nat) = 2 ^ 13 := by norm_num
    have bound1 : b0 <<< 5 ||| b1 >>> 3 < 2 ^ 13 := by
      apply nat_lor_lt_pow
      · rw [Nat.shiftLeft_eq]
        calc b0 * 2 ^ 5 < 256 * 2 ^ 5 :=
              (Nat.mul_lt_mul_right (by norm_num)).mpr hb0
          _ ≤ 2 ^ 13 := by norm_num
      · rw [Nat.shiftRight_eq_div_pow]
        exact lt_of_le_of_lt (Nat.div_le_self _ _) (by omega)
    have bound2 : (b1 &&& 0x7) <<< 10 ||| b2 <<< 2 ||| b3 >>> 6 < 2 ^ 13 := by
      apply nat_lor_lt_pow
      · apply nat_lor_lt_pow
        · rw [Nat.shiftLeft_eq]
          have : b1 &&& 7 ≤ 7 := Nat.and_le_right
          calc (b1 &&& 7) * 2 ^ 10 ≤ 7 * 2 ^ 10 :=
                Nat.mul_le_mul_right _ this
            _ < 2 ^ 13 := by norm_num
        · rw [Nat.shiftLeft_eq]
          calc b2 * 2 ^ 2 < 256 * 2 ^ 2 :=
                (Nat.mul_lt_mul_right (by norm_num)).mpr hb2
            _ ≤ 2 ^ 13 := by norm_num
      · rw [Nat.shiftRight_eq_div_pow]
        exact lt_of_le_of_lt (Nat.div_le_self _ _) (by omega)
    have bound3 : (b3 &&& 0x3F) <<< 7 ||| b4 >>> 1 < 2 ^ 13 := by
      apply nat_lor_lt_pow
      · rw [Nat.shiftLeft_eq]
        have : b3 &&& 0x3F ≤ 0x3F := Nat.and_le_right
        calc (b3 &&& 0x3F) * 2 ^ 7 ≤ 63 * 2 ^ 7 :=
              Nat.mul_le_mul_right _ this
          _ < 2 ^ 13 := by norm_num
      · rw [Nat.shiftRight_eq_div_pow]
        exact lt_of_le_of_lt (Nat.div_le_self _ _) (by omega)
    simp only [bytes_to_decimal]
    refine ⟨by omega, by omega, by omega, by omega, by omega, by omega⟩

/-- Closed-form witness for `sas_decimal_derivation` at the all-zero
input. -/
theorem sas_decimal_derivation_witness :
    (1000 ≤ (bytes_to_decimal [0, 0, 0, 0, 0]).1 ∧
     (bytes_to_decimal [0, 0, 0, 0, 0]).1 ≤ 9191 ∧
     1000 ≤ (bytes_to_decimal [0, 0, 0, 0, 0]).2.1 ∧
     (bytes_to_decimal [0, 0, 0, 0, 0]).2.1 ≤ 9191 ∧
     1000 ≤ (bytes_to_decimal [0, 0, 0, 0, 0]).2.2 ∧
     (bytes_to_decimal [0, 0, 0, 0, 0]).2.2 ≤ 9191) ∧
    bytes_to_decimal [0, 0, 0, 0, 0] = (1000, 1000, 1000) ∧
    bytes_to_decimal [255, 255, 255, 255, 255] = (9191, 9191, 9191) :=
  sas_decimal_derivation [0, 0, 0, 0, 0] rfl (by decide)

/-! ## Outbound Megolm group sessions

From `src/crates/matrix-sdk-crypto/src/olm/group_sessions/outbound.rs`.
The inner `OlmOutboundGroupSession` ratchet is an opaque crypto primitive
and does not participate in any of the claims below, so the embedded
state carries only the bookkeeping fields around it.  `Instant` values
are modelled by passing the elapsed time (in milliseconds) explicitly to
`expired`. -/

abbrev UserId := String
abbrev DeviceIdBox := String
abbrev Uuid := Nat

/-- `ROTATION_PERIOD`: 604800000 ms (7 days). -/
def ROTATION_PERIOD : Nat := 604800000

/-- `ROTATION_MESSAGES`: 100. -/
def ROTATION_MESSAGES : Nat := 100

inductive EventEncryptionAlgorithm where
  | megolmV1AesSha2
  | olmV1Curve25519AesSha2
  | unsupported
deriving DecidableEq, Repr

inductive HistoryVisibility where
  | invited
  | joined
  | shared
  | worldReadable
deriving DecidableEq, Repr

/-- `EncryptionSettings`; `rotation_period` is a `Duration` held in
milliseconds. -/
structure EncryptionSettings where
  algorithm : EventEncryptionAlgorithm
  rotation_period : Nat
  rotation_period_msgs : Nat
  history_visibility : HistoryVisibility
deriving DecidableEq, Repr

/-- `ShareInfo`: per-recipient-device share record. -/
structure ShareInfo where
  sender_key : String
  message_index : Nat
deriving DecidableEq, Repr

/-- `ShareInfoSet = BTreeMap<UserId, BTreeMap<DeviceIdBox, ShareInfo>>`. -/
abbrev ShareInfoSet := List (UserId × List (DeviceIdBox × ShareInfo))

/-- The queued to-device request; its payload is irrelevant to the claims,
only its identity is tracked. -/
structure ToDeviceRequest where
  txn_id : Uuid
deriving DecidableEq, Repr

/-- The bookkeeping state of `OutboundGroupSession` (the opaque Megolm
ratchet, device id and identity keys are omitted: no claim mentions
them). -/
structure OutboundGroupSession where
  room_id : String
  session_id : String
  message_count : Nat
  shared : Bool
  invalidated : Bool
  settings : EncryptionSettings
  shared_with_set : List (UserId × List (DeviceIdBox × ShareInfo))
  to_share_with_set : List (Uuid × (ToDeviceRequest × ShareInfoSet))
deriving Repr

/-- `OutboundGroupSession::new`: fresh session, zero messages, not shared,
not invalidated, both share maps empty. -/
def OutboundGroupSession.new (room_id session_id : String)
    (settings : EncryptionSettings) : OutboundGroupSession :=
  { room_id := room_id
    session_id := session_id
    message_count := 0
    shared := false
    invalidated := false
    settings := settings
    shared_with_set := []
    to_share_with_set := [] }

/-- `OutboundGroupSession::add_request`. -/
def OutboundGroupSession.add_request (s : OutboundGroupSession)
    (request_id : Uuid) (request : ToDeviceRequest)
    (share_infos : ShareInfoSet) : OutboundGroupSession :=
  { s with to_share_with_set :=
      ainsert request_id (request, share_infos) s.to_share_with_set }

/-- `OutboundGroupSession::mark_as_shared`. -/
def OutboundGroupSession.mark_as_shared (s : OutboundGroupSession) :
    OutboundGroupSession :=
  { s with shared := true }

/-- `OutboundGroupSession::invalidate_session`. -/
def OutboundGroupSession.invalidate_session (s : OutboundGroupSession) :
    OutboundGroupSession :=
  { s with invalidated := true }

/-- `DashMap::extend` of one recipient-device map with another. -/
def extendDeviceMap (base upd : List (DeviceIdBox × ShareInfo)) :
    List (DeviceIdBox × ShareInfo) :=
  upd.foldl (fun acc p => ainsert p.1 p.2 acc) base

/-- The loop body of `mark_request_as_sent`:
`shared_with_set.entry(user_id).or_insert_with(DashMap::new).extend(info)`
for every `(user_id, info)` of the acknowledged request's share-info
set. -/
def mergeShareInfoSet
    (shared_with : List (UserId × List (DeviceIdBox × ShareInfo)))
    (r : ShareInfoSet) : List (UserId × List (DeviceIdBox × ShareInfo)) :=
  r.foldl
    (fun acc p =>
      ainsert p.1 (extendDeviceMap ((alookup p.1 acc).getD []) p.2) acc)
    shared_with

/-- `OutboundGroupSession::mark_request_as_sent`: remove the request from
the pending map; when found, merge its share-info set into
`shared_with_set` and, if the pending map became empty, mark the session
as shared; when the id is unknown, only log (state unchanged). -/
def OutboundGroupSession.mark_request_as_sent (s : OutboundGroupSession)
    (request_id : Uuid) : OutboundGroupSession :=
  match alookup request_id s.to_share_with_set with
  | some (_, r) =>
    let pending := aremove request_id s.to_share_with_set
    let s' := { s with to_share_with_set := pending
                       shared_with_set := mergeShareInfoSet s.shared_with_set r }
    if pending.isEmpty then s'.mark_as_shared else s'
  | none => s

/-- `OutboundGroupSession::expired`: message count reached
`rotation_period_msgs`, or the session age reached the rotation period
clamped from below to one hour (`max(rotation_period, 3600 s)`).
`elapsed` is `creation_time.elapsed()` in milliseconds. -/
def OutboundGroupSession.expired (s : OutboundGroupSession)
    (elapsed : Nat) : Bool :=
  s.message_count ≥ s.settings.rotation_period_msgs ||
    elapsed ≥ max s.settings.rotation_period 3600000

/-- `PickledOutboundGroupSession` (the opaque inner pickle string is
dropped; the session id it determines is passed to `from_pickle`
separately). -/
structure PickledOutboundGroupSession where
  room_id : String
  settings : EncryptionSettings
  message_count : Nat
  shared : Bool
  invalidated : Bool
  shared_with_set : List (UserId × List (DeviceIdBox × ShareInfo))
  requests : List (Uuid × (ToDeviceRequest × ShareInfoSet))
deriving Repr

/-- `OutboundGroupSession::from_pickle`: every bookkeeping field is
restored verbatim from the pickle; nothing re-establishes any relation
between `shared` and `requests`. -/
def OutboundGroupSession.from_pickle (session_id : String)
    (pickle : PickledOutboundGroupSession) : OutboundGroupSession :=
  { room_id := pickle.room_id
    session_id := session_id
    message_count := pickle.message_count
    shared := pickle.shared
    invalidated := pickle.invalidated
    settings := pickle.settings
    shared_with_set := pickle.shared_with_set
    to_share_with_set := pickle.requests }

/-- Sample settings used by concrete witnesses. -/
def sampleSettings : EncryptionSettings :=
  { algorithm := .megolmV1AesSha2
    rotation_period := ROTATION_PERIOD
    rotation_period_msgs := ROTATION_MESSAGES
    history_visibility := .shared }

/-- Sample settings with a rotation period below one hour. -/
def clampSettings : EncryptionSettings :=
  { algorithm := .megolmV1AesSha2
    rotation_period := 5000
    rotation_period_msgs := ROTATION_MESSAGES
    history_visibility := .shared }

def sampleSession : OutboundGroupSession :=
  OutboundGroupSession.new "!room:example.org" "sessionid" sampleSettings

def clampSession : OutboundGroupSession :=
  OutboundGroupSession.new "!room:example.org" "sessionid" clampSettings

/-- C2: `expired` is true iff the message count reached
`rotation_period_msgs` or the age reached both the configured rotation
period and one hour (i.e. `max(rotation_period, 1 h)`); in particular a
rotation period below one hour is clamped to one hour. -/
theorem outbound_expired_iff (s : OutboundGroupSession) (elapsed : Nat) :
    (s.expired elapsed = true ↔
      s.settings.rotation_period_msgs ≤ s.message_count ∨
        (s.settings.rotation_period ≤ elapsed ∧ 3600000 ≤ elapsed)) ∧
    (s.settings.rotation_period < 3600000 →
      (s.expired elapsed = true ↔
        s.settings.rotation_period_msgs ≤ s.message_count ∨
          3600000 ≤ elapsed)) := by
  simp only [OutboundGroupSession.expired, Bool.or_eq_true, decide_eq_true_eq,
    ge_iff_le]
  constructor
  · constructor
    · rintro (h | h)
      · exact Or.inl h
      · exact Or.inr ⟨le_trans (Nat.le_max_left _ _) h,
          le_trans (Nat.le_max_right _ _) h⟩
    · rintro (h | ⟨h1, h2⟩)
      · exact Or.inl h
      · exact Or.inr (Nat.max_le.mpr ⟨h1, h2⟩)
  · intro hlt
    constructor
    · rintro (h | h)
      · exact Or.inl h
      · exact Or.inr (le_trans (Nat.le_max_right _ _) h)
    · rintro (h | h)
      · exact Or.inl h
      · refine Or.inr (Nat.max_le.mpr ⟨le_trans (le_of_lt hlt) h, h⟩)

/-- Witness for `outbound_expired_iff` on a session whose rotation period
(5 s) is below the one-hour floor, evaluated at age exactly one hour. -/
theorem outbound_expired_iff_witness :
    clampSession.settings.rotation_period < 3600000 ∧
    (clampSession.expired 3600000 = true ↔
      clampSession.settings.rotation_period_msgs ≤ clampSession.message_count ∨
        3600000 ≤ 3600000) :=
  ⟨by decide, (outbound_expired_iff clampSession 3600000).2 (by decide)⟩

/-- Sample pending to-device request and its share-info set. -/
def witReq : ToDeviceRequest := { txn_id := 7 }

def witInfos : ShareInfoSet :=
  [("@alice:example.org",
    [("ALICEDEVICE", { sender_key := "alicecurvekey", message_index := 0 })])]

def witSession : OutboundGroupSession :=
  (OutboundGroupSession.new "!room:example.org" "sessionid"
      sampleSettings).add_request 7 witReq witInfos

/-- `mark_request_as_sent` with an id absent from the pending map leaves
the session untouched. -/
theorem mark_request_as_sent_not_found (s : OutboundGroupSession)
    (request_id : Uuid)
    (h : alookup request_id s.to_share_with_set = none) :
    s.mark_request_as_sent request_id = s := by
  simp [OutboundGroupSession.mark_request_as_sent, h]

/-- C3: acknowledging a pending request id removes it from
`to_share_with_set`, merges its share-info set into `shared_with_set`,
and sets `shared` exactly when the pending map thereby becomes empty
(otherwise `shared` keeps its previous value); an unknown id leaves the
session unchanged, and a repeated notification for the same id is a
no-op. -/
theorem mark_request_as_sent_spec (s : OutboundGroupSession)
    (request_id : Uuid) :
    (∀ req infos,
        alookup request_id s.to_share_with_set = some (req, infos) →
          (s.mark_request_as_sent request_id).to_share_with_set =
              aremove request_id s.to_share_with_set ∧
            (s.mark_request_as_sent request_id).shared_with_set =
              mergeShareInfoSet s.shared_with_set infos ∧
            (s.mark_request_as_sent request_id).shared =
              ((aremove request_id s.to_share_with_set).isEmpty || s.shared)) ∧
    (alookup request_id s.to_share_with_set = none →
        s.mark_request_as_sent request_id = s) ∧
    (s.mark_request_as_sent request_id).mark_request_as_sent request_id =
      s.mark_request_as_sent request_id := by
  refine ⟨?_, ?_, ?_⟩
  · intro req infos hfound
    simp only [OutboundGroupSession.mark_request_as_sent, hfound]
    by_cases hp : (aremove request_id s.to_share_with_set).isEmpty
    · simp [hp, OutboundGroupSession.mark_as_shared]
    · simp [hp]
  · intro hnone
    exact mark_request_as_sent_not_found s request_id hnone
  · rcases hfound : alookup request_id s.to_share_with_set with _ | ⟨req, infos⟩
    · simp only [mark_request_as_sent_not_found s request_id hfound]
    · have hpend : (s.mark_request_as_sent request_id).to_share_with_set =
          aremove request_id s.to_share_with_set := by
        simp only [OutboundGroupSession.mark_request_as_sent, hfound]
        by_cases hp : (aremove request_id s.to_share_with_set).isEmpty
        · simp [hp, OutboundGroupSession.mark_as_shared]
        · simp [hp]
      have hsecond : alookup request_id
          (s.mark_request_as_sent request_id).to_share_with_set = none := by
        rw [hpend]; exact alookup_aremove _ _
      exact mark_request_as_sent_not_found _ request_id hsecond

/-- Witness for `mark_request_as_sent_spec`: a session with a single
pending request, acknowledged by its id. -/
theorem mark_request_as_sent_spec_witness :
    ((witSession.mark_request_as_sent 7).to_share_with_set =
        aremove 7 witSession.to_share_with_set ∧
      (witSession.mark_request_as_sent 7).shared_with_set =
        mergeShareInfoSet witSession.shared_with_set witInfos ∧
      (witSession.mark_request_as_sent 7).shared =
        ((aremove 7 witSession.to_share_with_set).isEmpty ||
          witSession.shared)) ∧
    (witSession.mark_request_as_sent 8).mark_request_as_sent 8 =
      witSession.mark_request_as_sent 8 :=
  ⟨(mark_request_as_sent_spec witSession 7).1 witReq witInfos rfl,
    (mark_request_as_sent_spec witSession 8).2.2⟩

/-- The reachability relation of claim C4 read literally: sessions
produced by any sequence of `new`, `add_request`, `mark_request_as_sent`,
`mark_as_shared` and restoration via `from_pickle`. -/
inductive Reachable : OutboundGroupSession → Prop where
  | new (room_id session_id : String) (settings : EncryptionSettings) :
      Reachable (OutboundGroupSession.new room_id session_id settings)
  | add_request (s : OutboundGroupSession) (request_id : Uuid)
      (request : ToDeviceRequest) (share_infos : ShareInfoSet) :
      Reachable s → Reachable (s.add_request request_id request share_infos)
  | mark_request_as_sent (s : OutboundGroupSession) (request_id : Uuid) :
      Reachable s → Reachable (s.mark_request_as_sent request_id)
  | mark_as_shared (s : OutboundGroupSession) :
      Reachable s → Reachable s.mark_as_shared
  | from_pickle (session_id : String) (p : PickledOutboundGroupSession) :
      Reachable (OutboundGroupSession.from_pickle session_id p)

/-- A session that is shared yet still has a pending request: share one
request, let `mark_request_as_sent` flip `shared` to true, then queue a
second request (as happens when the key must be shared with a device
that joined later). -/
def cxSession : OutboundGroupSession :=
  (((OutboundGroupSession.new "!room:example.org" "sessionid"
        sampleSettings).add_request 1 witReq witInfos).mark_request_as_sent
      1).add_request 2 witReq witInfos

/-- C4 counterexample: the invariant `shared = true → pending map empty`
does not hold for every session reachable by the claim's operations;
`cxSession` is reachable, is shared, and still has a pending request
(`mark_as_shared` on a session with pending requests, or `from_pickle`
of a pickle with `shared = true` and non-empty `requests`, break it as
well). -/
theorem outbound_shared_invariant_counterexample :
    ¬ (∀ s : OutboundGroupSession,
        Reachable s → s.shared = true → s.to_share_with_set = []) := by
  intro h
  have hr : Reachable cxSession :=
    Reachable.add_request _ 2 witReq witInfos
      (Reachable.mark_request_as_sent _ 1
        (Reachable.add_request _ 1 witReq witInfos
          (Reachable.new "!room:example.org" "sessionid" sampleSettings)))
  have hempty := h cxSession hr rfl
  rw [show cxSession.to_share_with_set = [(2, (witReq, witInfos))] from rfl]
    at hempty
  exact List.cons_ne_nil _ _ hempty

/-- The claim's reachability amended by the weakest side conditions its
counterexamples force: `add_request` only fires on sessions not yet
marked shared, `mark_as_shared` only on sessions without pending
requests, and `from_pickle` only on pickles already satisfying the
invariant. -/
inductive ReachableInv : OutboundGroupSession → Prop where
  | new (room_id session_id : String) (settings : EncryptionSettings) :
      ReachableInv (OutboundGroupSession.new room_id session_id settings)
  | add_request (s : OutboundGroupSession) (request_id : Uuid)
      (request : ToDeviceRequest) (share_infos : ShareInfoSet) :
      ReachableInv s → s.shared = false →
      ReachableInv (s.add_request request_id request share_infos)
  | mark_request_as_sent (s : OutboundGroupSession) (request_id : Uuid) :
      ReachableInv s → ReachableInv (s.mark_request_as_sent request_id)
  | mark_as_shared (s : OutboundGroupSession) :
      ReachableInv s → s.to_share_with_set = [] →
      ReachableInv s.mark_as_shared
  | from_pickle (session_id : String) (p : PickledOutboundGroupSession) :
      (p.shared = true → p.requests = []) →
      ReachableInv (OutboundGroupSession.from_pickle session_id p)

/-- C4 (amended): `shared = true` implies an empty pending to-share map,
for every session reachable by `new`, `add_request` (on a not-yet-shared
session), `mark_request_as_sent`, `mark_as_shared` (on a session with no
pending requests) and `from_pickle` (of a pickle satisfying the
invariant).  In particular `mark_request_as_sent` itself always
preserves the invariant. -/
theorem outbound_shared_invariant (s : OutboundGroupSession)
    (h : ReachableInv s) (hs : s.shared = true) :
    s.to_share_with_set = [] := by
  induction h with
  | new room_id session_id settings =>
    simp [OutboundGroupSession.new] at hs
  | add_request s' request_id request share_infos h hnot ih =>
    rw [show (s'.add_request request_id request share_infos).shared = s'.shared
        from rfl] at hs
    rw [hnot] at hs
    exact absurd hs (by simp)
  | mark_request_as_sent s' request_id h ih =>
    rcases hfound : alookup request_id s'.to_share_with_set with _ | ⟨req, infos⟩
    · rw [show s'.mark_request_as_sent request_id = s' by
        simp [OutboundGroupSession.mark_request_as_sent, hfound]] at hs ⊢
      exact ih hs
    · by_cases hshared : s'.shared = true
      · have hempty := ih hshared
        rw [hempty] at hfound
        simp at hfound
      · simp only [OutboundGroupSession.mark_request_as_sent, hfound] at hs ⊢
        by_cases hp : (aremove request_id s'.to_share_with_set).isEmpty
        · simp only [hp, if_pos] at hs ⊢
          simpa [List.isEmpty_iff] using hp
        · simp only [hp, if_neg, Bool.false_eq_true, not_false_iff] at hs
          exact absurd hs hshared
  | mark_as_shared s' h hempty ih =>
    exact hempty
  | from_pickle session_id p hp =>
    exact hp hs

/-- Witness for `outbound_shared_invariant`: an empty fresh session marked
as shared. -/
theorem outbound_shared_invariant_witness :
    sampleSession.mark_as_shared.to_share_with_set = [] :=
  outbound_shared_invariant sampleSession.mark_as_shared
    (ReachableInv.mark_as_shared sampleSession
      (ReachableInv.new "!room:example.org" "sessionid" sampleSettings) rfl)
    rfl

/-! ## Inbound Megolm group sessions

From `src/crates/matrix-sdk-crypto/src/olm/group_sessions/inbound.rs`.
The opaque `OlmInboundGroupSession` ratchet is modelled by two oracle
functions carried in the session state: `megolm_decrypt` merges
`decrypt_helper` (ratchet decryption of a ciphertext into a plaintext
string plus message index) with the subsequent `serde_json::from_str`
parse, returning the plaintext as an abstract JSON value, and
`megolm_export` is `OlmInboundGroupSession::export` (whose failure the
Rust code turns into a panic via `.expect`, so it is total here). -/

/-- Abstract JSON values (`serde_json::Value`); objects are field lists
with `ainsert` / `alookup` giving `serde_json::Map`'s replace-on-insert
and key-lookup semantics. -/
inductive Json where
  | null
  | bool (b : Bool)
  | num (n : Int)
  | str (s : String)
  | arr (elems : List Json)
  | obj (fields : List (String × Json))

/-- `Value::as_str`. -/
def Json.as_str : Json → Option String
  | .str s => some s
  | _ => none

/-- `Value::as_object`. -/
def Json.as_object : Json → Option (List (String × Json))
  | .obj fields => some fields
  | _ => none

/-- `RoomId::try_from` (ruma): a room id must begin with the `!` sigil
and contain a `:` separating localpart from server name; no
normalisation happens, a successful parse returns the input itself. -/
def RoomId.tryFrom (s : String) : Option String :=
  match s.data with
  | '!' :: rest => if rest.contains ':' then some s else none
  | _ => none

inductive DeviceKeyAlgorithm where
  | ed25519
  | curve25519
  | signedCurve25519
deriving DecidableEq, Repr

/-- The Megolm scheme payload of an `m.room.encrypted` event. -/
structure MegolmV1Content where
  ciphertext : String
  sender_key : String
  device_id : String
  session_id : String
deriving DecidableEq, Repr

inductive EncryptedEventScheme where
  | megolmV1AesSha2 (c : MegolmV1Content)
  | olmV1Curve25519AesSha2
deriving DecidableEq, Repr

/-- The outer (server-attested) `SyncEncryptedEvent` envelope.
`unsigned` stands for `serde_json::to_value(&event.unsigned)` and
`relates_to` for the `m.relates_to` entry of the serialised outer
content. -/
structure SyncEncryptedEvent where
  scheme : EncryptedEventScheme
  relates_to : Option Json
  sender : String
  event_id : String
  origin_server_ts : Int
  unsigned : Json

/-- `serde_json::to_value(&event.content)` restricted to the only field
`decrypt` reads back out of it, `m.relates_to`. -/
def SyncEncryptedEvent.content_value (event : SyncEncryptedEvent) : Json :=
  match event.relates_to with
  | some r => Json.obj [("m.relates_to", r)]
  | none => Json.obj []

/-- `InboundGroupSession` state; see the section comment for the two
oracle fields. -/
structure InboundGroupSession where
  session_id : String
  first_known_index : Nat
  sender_key : String
  signing_keys : List (DeviceKeyAlgorithm × String)
  room_id : String
  forwarding_chains : List String
  imported : Bool
  backed_up : Bool
  megolm_decrypt : String → Option (Json × Nat)
  megolm_export : Nat → String

/-- The error cases of `decrypt` (`EventError` / Olm errors); decryption
and parse failures before the plaintext object exists are collapsed into
`decryption`, which no claim distinguishes. -/
inductive MegolmError where
  | unsupportedAlgorithm
  | notAnObject
  | mismatchedRoom (expected : String) (found : Option String)
  | decryption
deriving DecidableEq, Repr

/-- The `m.relates_to` copy-down step of `decrypt`: if the plaintext's
`content` entry is an object lacking `m.relates_to`, copy that field in
from the serialised outer content. -/
def copyRelatesTo (event : SyncEncryptedEvent)
    (fields : List (String × Json)) : List (String × Json) :=
  match alookup "content" fields with
  | some (Json.obj cfields) =>
    if (alookup "m.relates_to" cfields).isNone then
      match event.content_value.as_object.bind (alookup "m.relates_to") with
      | some relation =>
        ainsert "content" (Json.obj (ainsert "m.relates_to" relation cfields))
          fields
      | none => fields
    else fields
  | _ => fields

/-- The three envelope injections of `decrypt`: overwrite `sender`,
`event_id` and `origin_server_ts` in the plaintext object with the outer
(server-attested) envelope's values. -/
def injectEnvelope (event : SyncEncryptedEvent)
    (fields : List (String × Json)) : List (String × Json) :=
  ainsert "origin_server_ts" (Json.num event.origin_server_ts)
    (ainsert "event_id" (Json.str event.event_id)
      (ainsert "sender" (Json.str event.sender) fields))

/-- The `room_id` extraction of `decrypt`:
`get("room_id").and_then(|r| r.as_str().and_then(|r| RoomId::try_from(r).ok()))`. -/
def extractRoomId (fields : List (String × Json)) : Option String :=
  (alookup "room_id" fields).bind (fun r => r.as_str.bind RoomId.tryFrom)

/-- `InboundGroupSession::decrypt`: check the scheme, decrypt and parse
the ciphertext, require a JSON object, inject `sender`, `event_id` and
`origin_server_ts` from the outer envelope, check the plaintext
`room_id` against the session's, copy in `unsigned` and possibly
`m.relates_to`, and return the patched object with the message index.
(The final `Raw<AnySyncRoomEvent>` wrapping stores the JSON value
unvalidated, so it is the identity here.) -/
def InboundGroupSession.decrypt (s : InboundGroupSession)
    (event : SyncEncryptedEvent) : Except MegolmError (Json × Nat) :=
  match event.scheme with
  | .megolmV1AesSha2 c =>
    match s.megolm_decrypt c.ciphertext with
    | none => .error .decryption
    | some (plaintext, message_index) =>
      match plaintext with
      | .obj fields0 =>
        if extractRoomId (injectEnvelope event fields0) = some s.room_id then
          .ok (Json.obj
            (copyRelatesTo event
              (ainsert "unsigned" event.unsigned
                (injectEnvelope event fields0))),
            message_index)
        else
          .error (.mismatchedRoom s.room_id
            (extractRoomId (injectEnvelope event fields0)))
      | _ => .error .notAnObject
  | _ => .error .unsupportedAlgorithm

/-- `ExportedRoomKey`. -/
structure ExportedRoomKey where
  algorithm : EventEncryptionAlgorithm
  room_id : String
  sender_key : String
  session_id : String
  forwarding_curve25519_key_chain : List String
  sender_claimed_keys : List (DeviceKeyAlgorithm × String)
  session_key : String

/-- `InboundGroupSession::export_at_index`: clamp the requested index up
to `first_known_index`, export the ratchet there, and copy the session's
stored metadata into the exported key. -/
def InboundGroupSession.export_at_index (s : InboundGroupSession)
    (message_index : Nat) : ExportedRoomKey :=
  let message_index := max s.first_known_index message_index
  { algorithm := .megolmV1AesSha2
    room_id := s.room_id
    sender_key := s.sender_key
    session_id := s.session_id
    forwarding_curve25519_key_chain := s.forwarding_chains
    sender_claimed_keys := s.signing_keys
    session_key := s.megolm_export message_index }

/-- A successful `RoomId::try_from` returns its input. -/
theorem RoomId.tryFrom_eq_some (s t : String)
    (h : RoomId.tryFrom s = some t) : t = s := by
  unfold RoomId.tryFrom at h
  split at h
  · split at h
    · exact (Option.some.inj h).symm
    · exact absurd h (by simp)
  · exact absurd h (by simp)

/-- If the `room_id` extraction chain of `decrypt` yields `rid`, the
`room_id` field itself is the JSON string `rid`. -/
theorem room_id_chain (fields : List (String × Json)) (rid : String)
    (h : (alookup "room_id" fields).bind
        (fun r => r.as_str.bind RoomId.tryFrom) = some rid) :
    alookup "room_id" fields = some (Json.str rid) := by
  rcases hl : alookup "room_id" fields with _ | v
  · rw [hl] at h
    simp at h
  · rw [hl] at h
    simp only [Option.some_bind] at h
    rcases v with _ | b | n | t | elems | fs
    · simp [Json.as_str] at h
    · simp [Json.as_str] at h
    · simp [Json.as_str] at h
    · simp only [Json.as_str, Option.some_bind] at h
      have := RoomId.tryFrom_eq_some t rid h
      rw [this]
    · simp [Json.as_str] at h
    · simp [Json.as_str] at h

/-- Lookups of keys other than `content` pass through `copyRelatesTo`
unchanged. -/
theorem alookup_copyRelatesTo_ne (event : SyncEncryptedEvent)
    (fields : List (String × Json)) (k : String) (hk : k ≠ "content") :
    alookup k (copyRelatesTo event fields) = alookup k fields := by
  unfold copyRelatesTo
  split
  · split
    · split
      · exact alookup_ainsert_ne "content" k _ _ (fun h => hk h.symm)
      · rfl
    · rfl
  · rfl

/-- `injectEnvelope` sets the `sender` field to the envelope's sender. -/
theorem alookup_injectEnvelope_sender (event : SyncEncryptedEvent)
    (fields : List (String × Json)) :
    alookup "sender" (injectEnvelope event fields) =
      some (Json.str event.sender) := by
  unfold injectEnvelope
  rw [alookup_ainsert_ne _ _ _ _ (by decide),
    alookup_ainsert_ne _ _ _ _ (by decide), alookup_ainsert]

/-- `injectEnvelope` sets the `event_id` field to the envelope's event
id. -/
theorem alookup_injectEnvelope_event_id (event : SyncEncryptedEvent)
    (fields : List (String × Json)) :
    alookup "event_id" (injectEnvelope event fields) =
      some (Json.str event.event_id) := by
  unfold injectEnvelope
  rw [alookup_ainsert_ne _ _ _ _ (by decide), alookup_ainsert]

/-- `injectEnvelope` sets the `origin_server_ts` field to the envelope's
timestamp. -/
theorem alookup_injectEnvelope_ts (event : SyncEncryptedEvent)
    (fields : List (String × Json)) :
    alookup "origin_server_ts" (injectEnvelope event fields) =
      some (Json.num event.origin_server_ts) := by
  unfold injectEnvelope
  rw [alookup_ainsert]

/-- `injectEnvelope` leaves every field other than the three injected
ones alone. -/
theorem alookup_injectEnvelope_ne (event : SyncEncryptedEvent)
    (fields : List (String × Json)) (k : String) (h1 : k ≠ "sender")
    (h2 : k ≠ "event_id") (h3 : k ≠ "origin_server_ts") :
    alookup k (injectEnvelope event fields) = alookup k fields := by
  unfold injectEnvelope
  rw [alookup_ainsert_ne _ _ _ _ (fun h => h3 h.symm),
    alookup_ainsert_ne _ _ _ _ (fun h => h2 h.symm),
    alookup_ainsert_ne _ _ _ _ (fun h => h1 h.symm)]

/-- C1: whenever `decrypt` succeeds, the plaintext carried a `room_id`
field equal to the session's room id, and the returned event's
`sender`, `event_id` and `origin_server_ts` are the outer envelope's
(overwriting any plaintext self-declaration), with `room_id` still the
session's; and whenever the plaintext object's `room_id` is absent or
differs from the session's room id, `decrypt` returns the
`MismatchedRoom` error instead. -/
theorem inbound_decrypt_envelope_and_room (s : InboundGroupSession)
    (event : SyncEncryptedEvent) :
    (∀ r idx, s.decrypt event = .ok (r, idx) →
      ∃ c fields0 fields,
        event.scheme = .megolmV1AesSha2 c ∧
        s.megolm_decrypt c.ciphertext = some (Json.obj fields0, idx) ∧
        alookup "room_id" fields0 = some (Json.str s.room_id) ∧
        r = Json.obj fields ∧
        alookup "sender" fields = some (Json.str event.sender) ∧
        alookup "event_id" fields = some (Json.str event.event_id) ∧
        alookup "origin_server_ts" fields =
          some (Json.num event.origin_server_ts) ∧
        alookup "room_id" fields = some (Json.str s.room_id)) ∧
    (∀ c fields0 idx,
      event.scheme = .megolmV1AesSha2 c →
      s.megolm_decrypt c.ciphertext = some (Json.obj fields0, idx) →
      alookup "room_id" fields0 ≠ some (Json.str s.room_id) →
      ∃ found,
        s.decrypt event = .error (.mismatchedRoom s.room_id found)) := by
  constructor
  · intro r idx h
    rcases hscheme : event.scheme with c | _
    case olmV1Curve25519AesSha2 =>
      simp only [InboundGroupSession.decrypt, hscheme] at h
      exact absurd h (by simp)
    rcases hdec : s.megolm_decrypt c.ciphertext with _ | ⟨pt, midx⟩
    · simp only [InboundGroupSession.decrypt, hscheme, hdec] at h
      exact absurd h (by simp)
    rcases pt with _ | b | n | t | elems | fields0
    case null =>
      simp only [InboundGroupSession.decrypt, hscheme, hdec] at h
      exact absurd h (by simp)
    case bool =>
      simp only [InboundGroupSession.decrypt, hscheme, hdec] at h
      exact absurd h (by simp)
    case num =>
      simp only [InboundGroupSession.decrypt, hscheme, hdec] at h
      exact absurd h (by simp)
    case str =>
      simp only [InboundGroupSession.decrypt, hscheme, hdec] at h
      exact absurd h (by simp)
    case arr =>
      simp only [InboundGroupSession.decrypt, hscheme, hdec] at h
      exact absurd h (by simp)
    simp only [InboundGroupSession.decrypt, hscheme, hdec] at h
    by_cases hcond :
        extractRoomId (injectEnvelope event fields0) = some s.room_id
    case neg =>
      rw [if_neg hcond] at h
      exact absurd h (by simp)
    rw [if_pos hcond] at h
    simp only [Except.ok.injEq, Prod.mk.injEq] at h
    obtain ⟨hr, hidx⟩ := h
    subst hidx
    have hchain : alookup "room_id" (injectEnvelope event fields0) =
        some (Json.str s.room_id) :=
      room_id_chain _ _ hcond
    refine ⟨c, fields0,
      copyRelatesTo event
        (ainsert "unsigned" event.unsigned (injectEnvelope event fields0)),
      rfl, hdec, ?_, hr.symm, ?_, ?_, ?_, ?_⟩
    · rw [← hchain]
      exact (alookup_injectEnvelope_ne event fields0 "room_id" (by decide)
        (by decide) (by decide)).symm
    · rw [alookup_copyRelatesTo_ne _ _ _ (by decide),
        alookup_ainsert_ne _ _ _ _ (by decide)]
      exact alookup_injectEnvelope_sender event fields0
    · rw [alookup_copyRelatesTo_ne _ _ _ (by decide),
        alookup_ainsert_ne _ _ _ _ (by decide)]
      exact alookup_injectEnvelope_event_id event fields0
    · rw [alookup_copyRelatesTo_ne _ _ _ (by decide),
        alookup_ainsert_ne _ _ _ _ (by decide)]
      exact alookup_injectEnvelope_ts event fields0
    · rw [alookup_copyRelatesTo_ne _ _ _ (by decide),
        alookup_ainsert_ne _ _ _ _ (by decide)]
      exact hchain
  · intro c fields0 idx hscheme hdec hne
    have hcond : extractRoomId (injectEnvelope event fields0) ≠
        some s.room_id := by
      intro hcon
      apply hne
      have hchain := room_id_chain _ _ hcon
      rw [← hchain]
      exact (alookup_injectEnvelope_ne event fields0 "room_id" (by decide)
        (by decide) (by decide)).symm
    refine ⟨extractRoomId (injectEnvelope event fields0), ?_⟩
    simp only [InboundGroupSession.decrypt, hscheme, hdec]
    rw [if_neg hcond]

/-- Concrete inbound session for the decrypt witnesses; its decryption
oracle knows one good ciphertext (a plaintext with the session's room
id) and one bad one (a plaintext with no room id). -/
def decSession : InboundGroupSession :=
  { session_id := "sessionid"
    first_known_index := 0
    sender_key := "sendercurvekey"
    signing_keys := [(DeviceKeyAlgorithm.ed25519, "senderedkey")]
    room_id := "!room:example.org"
    forwarding_chains := []
    imported := false
    backed_up := false
    megolm_decrypt := fun ct =>
      if ct = "GOODCIPHERTEXT" then
        some (Json.obj
          [("type", Json.str "m.room.message"),
           ("room_id", Json.str "!room:example.org"),
           ("content", Json.obj [("body", Json.str "hello")])], 3)
      else if ct = "BADCIPHERTEXT" then
        some (Json.obj [("type", Json.str "m.room.message")], 0)
      else none
    megolm_export := fun idx => String.append "exportedkeyat" (toString idx) }

def goodContent : MegolmV1Content :=
  { ciphertext := "GOODCIPHERTEXT"
    sender_key := "sendercurvekey"
    device_id := "SENDERDEVICE"
    session_id := "sessionid" }

def badContent : MegolmV1Content :=
  { ciphertext := "BADCIPHERTEXT"
    sender_key := "sendercurvekey"
    device_id := "SENDERDEVICE"
    session_id := "sessionid" }

def decEvent : SyncEncryptedEvent :=
  { scheme := EncryptedEventScheme.megolmV1AesSha2 goodContent
    relates_to := none
    sender := "@alice:example.org"
    event_id := "$eventid:example.org"
    origin_server_ts := 1234
    unsigned := Json.obj [] }

def badEvent : SyncEncryptedEvent :=
  { decEvent with
    scheme := EncryptedEventScheme.megolmV1AesSha2 badContent }

/-- The decrypted event `decSession.decrypt decEvent` produces. -/
def decResult : Json :=
  Json.obj
    [("type", Json.str "m.room.message"),
     ("room_id", Json.str "!room:example.org"),
     ("content", Json.obj [("body", Json.str "hello")]),
     ("sender", Json.str "@alice:example.org"),
     ("event_id", Json.str "$eventid:example.org"),
     ("origin_server_ts", Json.num 1234),
     ("unsigned", Json.obj [])]

/-- Witness for `inbound_decrypt_envelope_and_room`: a successful
decryption and a mismatched-room failure at concrete inputs. -/
theorem inbound_decrypt_envelope_and_room_witness :
    (∃ c fields0 fields,
        decEvent.scheme = .megolmV1AesSha2 c ∧
        decSession.megolm_decrypt c.ciphertext = some (Json.obj fields0, 3) ∧
        alookup "room_id" fields0 = some (Json.str decSession.room_id) ∧
        decResult = Json.obj fields ∧
        alookup "sender" fields = some (Json.str decEvent.sender) ∧
        alookup "event_id" fields = some (Json.str decEvent.event_id) ∧
        alookup "origin_server_ts" fields =
          some (Json.num decEvent.origin_server_ts) ∧
        alookup "room_id" fields = some (Json.str decSession.room_id)) ∧
    (∃ found, decSession.decrypt badEvent =
        .error (.mismatchedRoom decSession.room_id found)) :=
  ⟨(inbound_decrypt_envelope_and_room decSession decEvent).1 decResult 3
      (by rfl),
    (inbound_decrypt_envelope_and_room decSession badEvent).2
      badContent [("type", Json.str "m.room.message")] 0 (by rfl) (by rfl)
      (by intro hcon
          rw [show alookup "room_id" [("type", Json.str "m.room.message")] =
            (none : Option Json) from rfl] at hcon
          cases hcon)⟩

/-- C10: `export_at_index` exports the ratchet at
`max(first_known_index, requested)` — a request below the first known
index silently exports at the first known index instead of failing —
and the exported key's metadata (room id, sender key, session id,
forwarding chain, claimed signing keys) is the session's. -/
theorem export_at_index_clamps (s : InboundGroupSession) (i : Nat) :
    (s.export_at_index i).session_key =
        s.megolm_export (max i s.first_known_index) ∧
    (i < s.first_known_index →
        s.export_at_index i = s.export_at_index s.first_known_index) ∧
    (s.export_at_index i).room_id = s.room_id ∧
    (s.export_at_index i).sender_key = s.sender_key ∧
    (s.export_at_index i).session_id = s.session_id ∧
    (s.export_at_index i).forwarding_curve25519_key_chain =
        s.forwarding_chains ∧
    (s.export_at_index i).sender_claimed_keys = s.signing_keys := by
  refine ⟨?_, ?_, rfl, rfl, rfl, rfl, rfl⟩
  · show s.megolm_export (max s.first_known_index i) =
      s.megolm_export (max i s.first_known_index)
    rw [Nat.max_comm]
  · intro hlt
    show (⟨_, s.room_id, s.sender_key, s.session_id, s.forwarding_chains,
        s.signing_keys, s.megolm_export (max s.first_known_index i)⟩ :
        ExportedRoomKey) = ⟨_, s.room_id, s.sender_key, s.session_id,
        s.forwarding_chains, s.signing_keys,
        s.megolm_export (max s.first_known_index s.first_known_index)⟩
    rw [Nat.max_eq_left (Nat.le_of_lt hlt), Nat.max_self]

/-- `decSession` with first known index 5, for the export witness. -/
def clampInbound : InboundGroupSession :=
  { decSession with first_known_index := 5 }

/-- Witness for `export_at_index_clamps`: a session with first known
index 5 clamps a request for index 2 up to 5. -/
theorem export_at_index_clamps_witness :
    (clampInbound.export_at_index 2).session_key =
        clampInbound.megolm_export (max 2 5) ∧
    (2 < clampInbound.first_known_index →
      clampInbound.export_at_index 2 =
        clampInbound.export_at_index clampInbound.first_known_index) ∧
    (clampInbound.export_at_index 2).room_id = clampInbound.room_id :=
  ⟨(export_at_index_clamps clampInbound 2).1,
    (export_at_index_clamps clampInbound 2).2.1,
    (export_at_index_clamps clampInbound 2).2.2.1⟩

/-! ## Pairwise session manager

From `src/crates/matrix-sdk-crypto/src/session_manager/sessions.rs`.
Instants are `Nat` second counts against an explicit `now`, so
`creation_time.elapsed()` is `now - creation_time`. -/

/-- A stored pairwise Olm session: the remote curve25519 sender key it is
indexed under and its creation instant. -/
structure Session where
  sender_key : String
  creation_time : Nat
deriving DecidableEq, Repr

structure ReadOnlyDevice where
  user_id : UserId
  device_id : DeviceIdBox
  curve25519_key : Option String
deriving DecidableEq, Repr

/-- The store capability as the session manager uses it: device records
per user, Olm sessions per sender key. -/
structure Store where
  devices : List (UserId × List (DeviceIdBox × ReadOnlyDevice))
  sessions : List (String × List Session)
deriving Repr

def Store.get_readonly_devices (st : Store) (user_id : UserId) :
    List (DeviceIdBox × ReadOnlyDevice) :=
  (alookup user_id st.devices).getD []

def Store.get_readonly_device (st : Store) (user_id : UserId)
    (device_id : DeviceIdBox) : Option ReadOnlyDevice :=
  (alookup user_id st.devices).bind (alookup device_id)

def Store.get_sessions (st : Store) (sender_key : String) :
    Option (List Session) :=
  alookup sender_key st.sessions

/-- `get_device_from_curve_key`: the device of the user whose curve25519
key matches. -/
def Store.get_device_from_curve_key (st : Store) (user_id : UserId)
    (curve_key : String) : Option ReadOnlyDevice :=
  ((st.get_readonly_devices user_id).map Prod.snd).find?
    (fun d => d.curve25519_key = some curve_key)

/-- `UNWEDGING_INTERVAL`: 3600 seconds. -/
def UNWEDGING_INTERVAL : Nat := 3600

/-- `KEY_CLAIM_TIMEOUT`: 10 seconds. -/
def KEY_CLAIM_TIMEOUT : Nat := 10

/-- The session manager's own state.  The outgoing to-device queue only
records each queued dummy's recipient; its encrypted payload is opaque. -/
structure SessionManager where
  store : Store
  users_for_key_claim : List (UserId × List DeviceIdBox)
  wedged_devices : List (UserId × List DeviceIdBox)
  outgoing_to_device_requests : List (UserId × DeviceIdBox)

/-- `map.entry(u).or_insert_with(DashSet::new).insert(d)`. -/
def mapSetInsert (u : UserId) (d : DeviceIdBox)
    (mp : List (UserId × List DeviceIdBox)) :
    List (UserId × List DeviceIdBox) :=
  ainsert u (sinsert d ((alookup u mp).getD [])) mp

/-- `sessions.sort_by_key(|s| s.creation_time.clone())`. -/
def sortByCreationTime (sessions : List Session) : List Session :=
  sessions.mergeSort (fun a b => a.creation_time ≤ b.creation_time)

/-- `SessionManager::mark_device_as_wedged`: look the device up by curve
key, fetch its stored sessions (`device.get_sessions()` reads the store
bucket of the device's own curve25519 key), sort by creation time, and
when the first (oldest) session's age exceeds the unwedging interval,
record the device in both `users_for_key_claim` and `wedged_devices`;
in every other case change nothing. -/
def SessionManager.mark_device_as_wedged (m : SessionManager)
    (sender : UserId) (curve_key : String) (now : Nat) : SessionManager :=
  match m.store.get_device_from_curve_key sender curve_key with
  | none => m
  | some device =>
    match device.curve25519_key with
    | none => m
    | some k =>
      match m.store.get_sessions k with
      | none => m
      | some sessions =>
        match (sortByCreationTime sessions).head? with
        | none => m
        | some session =>
          if now - session.creation_time > UNWEDGING_INTERVAL then
            { m with
              users_for_key_claim :=
                mapSetInsert device.user_id device.device_id
                  m.users_for_key_claim
              wedged_devices :=
                mapSetInsert device.user_id device.device_id
                  m.wedged_devices }
          else m

/-- The head of the creation-time sort is a stored session of minimal
creation time. -/
theorem sortByCreationTime_head_min (sessions : List Session) (s0 : Session)
    (h : (sortByCreationTime sessions).head? = some s0) :
    s0 ∈ sessions ∧ ∀ s' ∈ sessions, s0.creation_time ≤ s'.creation_time := by
  have hsorted := @List.sorted_mergeSort Session
    (fun a b => decide (a.creation_time ≤ b.creation_time))
    (fun a b c hab hbc => by
      simp only [decide_eq_true_eq] at hab hbc ⊢
      omega)
    (fun a b => by
      rcases Nat.le_total a.creation_time b.creation_time with hle | hle <;>
        simp [hle])
    sessions
  rcases hsort : sessions.mergeSort
      (fun a b => a.creation_time ≤ b.creation_time) with _ | ⟨h0, rest⟩
  · rw [sortByCreationTime, hsort] at h
    simp at h
  · rw [sortByCreationTime, hsort] at h
    simp only [List.head?_cons, Option.some.injEq] at h
    rw [hsort] at hsorted
    have hmem0 : h0 ∈ sessions := by
      rw [← @List.mem_mergeSort Session
        (fun a b => decide (a.creation_time ≤ b.creation_time)) h0 sessions,
        hsort]
      exact List.mem_cons_self _ _
    rw [← h]
    refine ⟨hmem0, fun s' hs' => ?_⟩
    have hsmem : s' ∈ sessions.mergeSort
        (fun a b => a.creation_time ≤ b.creation_time) :=
      List.mem_mergeSort.mpr hs'
    rw [hsort] at hsmem
    rcases List.mem_cons.mp hsmem with rfl | hrest
    · exact Nat.le_refl _
    · have := (List.pairwise_cons.mp hsorted).1 s' hrest
      simpa using this

/-- C7: for a device found by curve25519 key with stored sessions,
`mark_device_as_wedged` adds the device to both `users_for_key_claim`
and `wedged_devices` when the oldest stored session is older than one
hour, and leaves the whole manager state unchanged when the oldest
session is at most an hour old or when the device or its sessions are
not found. -/
theorem mark_device_as_wedged_spec (m : SessionManager) (sender : UserId)
    (curve_key : String) (now : Nat) :
    (∀ device k sessions oldest,
        m.store.get_device_from_curve_key sender curve_key = some device →
        device.curve25519_key = some k →
        m.store.get_sessions k = some sessions →
        oldest ∈ sessions →
        (∀ s' ∈ sessions, oldest.creation_time ≤ s'.creation_time) →
        (now - oldest.creation_time > UNWEDGING_INTERVAL →
            (m.mark_device_as_wedged sender curve_key now).users_for_key_claim =
              mapSetInsert device.user_id device.device_id
                m.users_for_key_claim ∧
            (m.mark_device_as_wedged sender curve_key now).wedged_devices =
              mapSetInsert device.user_id device.device_id m.wedged_devices ∧
            (m.mark_device_as_wedged sender curve_key now).store = m.store ∧
            (m.mark_device_as_wedged sender curve_key
                now).outgoing_to_device_requests =
              m.outgoing_to_device_requests) ∧
          (now - oldest.creation_time ≤ UNWEDGING_INTERVAL →
            m.mark_device_as_wedged sender curve_key now = m)) ∧
    (m.store.get_device_from_curve_key sender curve_key = none →
        m.mark_device_as_wedged sender curve_key now = m) ∧
    (∀ device k,
        m.store.get_device_from_curve_key sender curve_key = some device →
        device.curve25519_key = some k →
        m.store.get_sessions k = none →
        m.mark_device_as_wedged sender curve_key now = m) := by
  refine ⟨?_, ?_, ?_⟩
  · intro device k sessions oldest hdev hkey hsess hmem hmin
    have hne : sortByCreationTime sessions ≠ [] := by
      intro hnil
      have := List.Perm.length_eq
        (List.mergeSort_perm sessions
          (fun a b => a.creation_time ≤ b.creation_time))
      rw [show sessions.mergeSort
          (fun a b => a.creation_time ≤ b.creation_time) =
          sortByCreationTime sessions from rfl, hnil] at this
      simp only [List.length_nil] at this
      rcases sessions with _ | _
      · exact absurd hmem (List.not_mem_nil _)
      · simp at this
    rcases hhead : (sortByCreationTime sessions).head? with _ | s0
    · exact absurd (List.head?_eq_none_iff.mp hhead) hne
    have hs0 := sortByCreationTime_head_min sessions s0 hhead
    have hct : s0.creation_time = oldest.creation_time :=
      Nat.le_antisymm (hs0.2 oldest hmem) (hmin s0 hs0.1)
    constructor
    · intro hold
      have hcond : now - s0.creation_time > UNWEDGING_INTERVAL := by
        rw [hct]; exact hold
      simp only [SessionManager.mark_device_as_wedged, hdev, hkey, hsess,
        hhead]
      rw [if_pos hcond]
      exact ⟨rfl, rfl, rfl, rfl⟩
    · intro hyoung
      have hcond : ¬ (now - s0.creation_time > UNWEDGING_INTERVAL) := by
        rw [hct]; omega
      simp only [SessionManager.mark_device_as_wedged, hdev, hkey, hsess,
        hhead]
      rw [if_neg hcond]
  · intro hdev
    simp [SessionManager.mark_device_as_wedged, hdev]
  · intro device k hdev hkey hsess
    simp [SessionManager.mark_device_as_wedged, hdev, hkey, hsess]

/-- Concrete store and manager for the wedging witness. -/
def bobDevice : ReadOnlyDevice :=
  { user_id := "@bob:example.org"
    device_id := "BOBDEVICE"
    curve25519_key := some "bobcurvekey" }

def bobSession : Session :=
  { sender_key := "bobcurvekey", creation_time := 100 }

def wedgeManager : SessionManager :=
  { store :=
      { devices := [("@bob:example.org", [("BOBDEVICE", bobDevice)])]
        sessions := [("bobcurvekey", [bobSession])] }
    users_for_key_claim := []
    wedged_devices := []
    outgoing_to_device_requests := [] }

/-- Witness for `mark_device_as_wedged_spec`: Bob's only session was
created at instant 100 and it is now instant 10000, far past the
one-hour interval, so Bob's device lands in both maps. -/
theorem mark_device_as_wedged_spec_witness :
    (wedgeManager.mark_device_as_wedged "@bob:example.org" "bobcurvekey"
        10000).users_for_key_claim =
      mapSetInsert bobDevice.user_id bobDevice.device_id
        wedgeManager.users_for_key_claim ∧
    (wedgeManager.mark_device_as_wedged "@bob:example.org" "bobcurvekey"
        10000).wedged_devices =
      mapSetInsert bobDevice.user_id bobDevice.device_id
        wedgeManager.wedged_devices ∧
    (wedgeManager.mark_device_as_wedged "@bob:example.org" "bobcurvekey"
        10000).store = wedgeManager.store ∧
    (wedgeManager.mark_device_as_wedged "@bob:example.org" "bobcurvekey"
        10000).outgoing_to_device_requests =
      wedgeManager.outgoing_to_device_requests :=
  ((mark_device_as_wedged_spec wedgeManager "@bob:example.org" "bobcurvekey"
      10000).1 bobDevice "bobcurvekey" [bobSession] bobSession
    (by rfl) (by rfl) (by rfl) (by decide) (by decide)).1 (by decide)

/-- `ainsert` never produces the empty map. -/
theorem ainsert_ne_nil {K V : Type} [DecidableEq K] (k : K) (v : V)
    (l : List (K × V)) : ainsert k v l ≠ [] := by
  cases l with
  | nil => simp [ainsert]
  | cons hd tl =>
    obtain ⟨k', v'⟩ := hd
    by_cases h : k' = k <;> simp [ainsert, h]

/-- Entries of `ainsert k v l` are the new binding or old entries. -/
theorem mem_ainsert {K V : Type} [DecidableEq K] (p : K × V) (k : K) (v : V)
    (l : List (K × V)) (hp : p ∈ ainsert k v l) : p = (k, v) ∨ p ∈ l := by
  induction l with
  | nil => simpa [ainsert] using hp
  | cons hd tl ih =>
    obtain ⟨k', v'⟩ := hd
    by_cases h : k' = k
    · rw [ainsert, if_pos h] at hp
      rcases List.mem_cons.mp hp with rfl | hmem
      · exact Or.inl rfl
      · exact Or.inr (List.mem_cons_of_mem _ hmem)
    · rw [ainsert, if_neg h] at hp
      rcases List.mem_cons.mp hp with rfl | hmem
      · exact Or.inr (List.mem_cons_self _ _)
      · rcases ih hmem with h1 | h1
        · exact Or.inl h1
        · exact Or.inr (List.mem_cons_of_mem _ h1)

/-- A successful `alookup` is an entry of the map. -/
theorem alookup_mem {K V : Type} [DecidableEq K] (k : K) (v : V)
    (l : List (K × V)) (h : alookup k l = some v) : (k, v) ∈ l := by
  induction l with
  | nil => simp at h
  | cons hd tl ih =>
    obtain ⟨k', v'⟩ := hd
    by_cases hk : k' = k
    · subst hk
      rw [alookup_cons, if_pos rfl] at h
      exact List.mem_cons.mpr (Or.inl (by simpa using h.symm))
    · rw [alookup_cons, if_neg hk] at h
      exact List.mem_cons_of_mem _ (ih h)

/-! ### Key-claim requests (`get_missing_sessions`) -/

/-- The outgoing claim map type:
`BTreeMap<UserId, BTreeMap<DeviceIdBox, DeviceKeyAlgorithm>>`. -/
abbrev ClaimMap := List (UserId × List (DeviceIdBox × DeviceKeyAlgorithm))

/-- Nested lookup in a two-level map. -/
def alookup2 {V : Type} (u : UserId) (d : DeviceIdBox)
    (mp : List (UserId × List (DeviceIdBox × V))) : Option V :=
  (alookup u mp).bind (alookup d)

/-- `missing.entry(user).or_insert_with(BTreeMap::new)
.insert(device, SignedCurve25519)`. -/
def missingMapInsert (u : UserId) (d : DeviceIdBox) (mp : ClaimMap) :
    ClaimMap :=
  ainsert u (ainsert d DeviceKeyAlgorithm.signedCurve25519
    ((alookup u mp).getD [])) mp

/-- `KeysClaimRequest` (`timeout` in seconds). -/
structure KeysClaimRequest where
  one_time_keys : ClaimMap
  timeout : Option Nat
deriving Repr

/-- The per-device test of the `get_missing_sessions` scan: the device
has a curve25519 key and the store holds no Olm session for that sender
key (no bucket, or an empty one). -/
def deviceNeedsClaim (m : SessionManager) (device : ReadOnlyDevice) : Bool :=
  match device.curve25519_key with
  | none => false
  | some sender_key =>
    match m.store.get_sessions sender_key with
    | some sessions => sessions.isEmpty
    | none => true

/-- The combined claim map `get_missing_sessions` builds: scan every
device of every listed user for a missing Olm session, then merge in the
whole `users_for_key_claim` map unconditionally. -/
def missingMapOf (m : SessionManager) (users : List UserId) : ClaimMap :=
  m.users_for_key_claim.foldl
    (fun acc p => p.2.foldl
      (fun acc device_id => missingMapInsert p.1 device_id acc) acc)
    (users.foldl
      (fun acc user_id =>
        (m.store.get_readonly_devices user_id).foldl
          (fun acc p => if deviceNeedsClaim m p.2 then
              missingMapInsert user_id p.1 acc else acc)
          acc)
      [])

/-- `SessionManager::get_missing_sessions`: `None` when the combined map
is empty, otherwise a fresh request id (`Uuid::new_v4`, passed in as
`new_request_id`) with a claim request carrying the 10-second timeout. -/
def SessionManager.get_missing_sessions (m : SessionManager)
    (users : List UserId) (new_request_id : Uuid) :
    Option (Uuid × KeysClaimRequest) :=
  if (missingMapOf m users).isEmpty then none
  else some (new_request_id,
    { one_time_keys := missingMapOf m users
      timeout := some KEY_CLAIM_TIMEOUT })

theorem alookup_getD_bind {V : Type} (u : UserId) (d : DeviceIdBox)
    (mp : List (UserId × List (DeviceIdBox × V))) :
    alookup d ((alookup u mp).getD []) = alookup2 u d mp := by
  cases h : alookup u mp <;> simp [alookup2, h]

/-- Lookup after a claim-map insert. -/
theorem alookup2_missingMapInsert (u : UserId) (d : DeviceIdBox)
    (u' : UserId) (d' : DeviceIdBox) (mp : ClaimMap) :
    alookup2 u' d' (missingMapInsert u d mp) =
      if u = u' ∧ d = d' then some DeviceKeyAlgorithm.signedCurve25519
      else alookup2 u' d' mp := by
  by_cases hu : u = u'
  · subst hu
    rw [show alookup2 u d' (missingMapInsert u d mp) =
        alookup d' (ainsert d DeviceKeyAlgorithm.signedCurve25519
          ((alookup u mp).getD [])) by
      simp [alookup2, missingMapInsert, alookup_ainsert]]
    by_cases hd : d = d'
    · subst hd
      rw [alookup_ainsert]
      simp
    · rw [alookup_ainsert_ne _ _ _ _ hd, alookup_getD_bind]
      simp [hd]
  · rw [show alookup2 u' d' (missingMapInsert u d mp) = alookup2 u' d' mp by
      simp [alookup2, missingMapInsert, alookup_ainsert_ne _ _ _ _ hu]]
    simp [hu]

/-- Characterisation of the device-scan fold of `get_missing_sessions`
over one user's devices. -/
theorem lookup2_devScanFold (m : SessionManager) (u : UserId)
    (devs : List (DeviceIdBox × ReadOnlyDevice)) (acc : ClaimMap)
    (u' : UserId) (d' : DeviceIdBox) :
    alookup2 u' d' (devs.foldl
      (fun acc p => if deviceNeedsClaim m p.2 then
          missingMapInsert u p.1 acc else acc) acc) =
      if devs.any (fun p => deviceNeedsClaim m p.2 && (u == u' && p.1 == d'))
      then some DeviceKeyAlgorithm.signedCurve25519
      else alookup2 u' d' acc := by
  induction devs generalizing acc with
  | nil => simp
  | cons p t ih =>
    rw [List.foldl_cons, ih, List.any_cons]
    by_cases ht : t.any
        (fun p => deviceNeedsClaim m p.2 && (u == u' && p.1 == d')) = true
    · simp [ht]
    · have ht' : t.any
          (fun p => deviceNeedsClaim m p.2 && (u == u' && p.1 == d')) =
          false := by
        revert ht
        cases t.any (fun p => deviceNeedsClaim m p.2 && (u == u' && p.1 == d'))
        · intro _; rfl
        · intro hcon; exact absurd rfl hcon
      simp only [ht', Bool.or_false]
      by_cases hneed : deviceNeedsClaim m p.2 = true
      · simp only [hneed, if_pos, Bool.true_and]
        rw [alookup2_missingMapInsert]
        by_cases hud : u = u' ∧ p.1 = d'
        · simp [hud.1, hud.2]
        · have hb : (u == u' && p.1 == d') = false := by
            rcases Bool.eq_false_or_eq_true (u == u' && p.1 == d') with hc | hc
            · exact absurd (by
                simpa only [Bool.and_eq_true, beq_iff_eq] using hc) hud
            · exact hc
          simp [hb, hud]
      · have hneed' : deviceNeedsClaim m p.2 = false := by
          revert hneed
          cases deviceNeedsClaim m p.2
          · intro _; rfl
          · intro hcon; exact absurd rfl hcon
        simp [hneed']

/-- Characterisation of the whole user scan of `get_missing_sessions`. -/
theorem lookup2_userScanFold (m : SessionManager) (users : List UserId)
    (acc : ClaimMap) (u' : UserId) (d' : DeviceIdBox) :
    alookup2 u' d' (users.foldl
      (fun acc user_id =>
        (m.store.get_readonly_devices user_id).foldl
          (fun acc p => if deviceNeedsClaim m p.2 then
              missingMapInsert user_id p.1 acc else acc)
          acc) acc) =
      if users.any (fun uid => (m.store.get_readonly_devices uid).any
          (fun p => deviceNeedsClaim m p.2 && (uid == u' && p.1 == d')))
      then some DeviceKeyAlgorithm.signedCurve25519
      else alookup2 u' d' acc := by
  induction users generalizing acc with
  | nil => simp
  | cons uid t ih =>
    rw [List.foldl_cons, ih, List.any_cons, lookup2_devScanFold]
    by_cases ht : t.any (fun uid => (m.store.get_readonly_devices uid).any
        (fun p => deviceNeedsClaim m p.2 && (uid == u' && p.1 == d'))) = true
    · simp [ht]
    · by_cases hd : (m.store.get_readonly_devices uid).any
          (fun p => deviceNeedsClaim m p.2 && (uid == u' && p.1 == d')) = true
      · simp [ht, hd]
      · simp [ht, hd]

/-- Characterisation of the `users_for_key_claim` merge over one user's
device set. -/
theorem lookup2_ufcInnerFold (u : UserId) (ds : List DeviceIdBox)
    (acc : ClaimMap) (u' : UserId) (d' : DeviceIdBox) :
    alookup2 u' d' (ds.foldl
      (fun acc device_id => missingMapInsert u device_id acc) acc) =
      if ds.any (fun dd => u == u' && dd == d')
      then some DeviceKeyAlgorithm.signedCurve25519
      else alookup2 u' d' acc := by
  induction ds generalizing acc with
  | nil => simp
  | cons dd t ih =>
    rw [List.foldl_cons, ih, List.any_cons]
    by_cases ht : t.any (fun dd => u == u' && dd == d') = true
    · simp [ht]
    · have ht' : t.any (fun dd => u == u' && dd == d') = false := by
        revert ht
        cases t.any (fun dd => u == u' && dd == d')
        · intro _; rfl
        · intro hcon; exact absurd rfl hcon
      simp only [ht', Bool.or_false]
      rw [alookup2_missingMapInsert]
      by_cases hud : u = u' ∧ dd = d'
      · simp [hud.1, hud.2]
      · have hb : (u == u' && dd == d') = false := by
          rcases Bool.eq_false_or_eq_true (u == u' && dd == d') with hc | hc
          · exact absurd (by
              simpa only [Bool.and_eq_true, beq_iff_eq] using hc) hud
          · exact hc
        simp [hb, hud]

/-- Characterisation of the whole `users_for_key_claim` merge. -/
theorem lookup2_ufcFold (entries : List (UserId × List DeviceIdBox))
    (acc : ClaimMap) (u' : UserId) (d' : DeviceIdBox) :
    alookup2 u' d' (entries.foldl
      (fun acc p => p.2.foldl
        (fun acc device_id => missingMapInsert p.1 device_id acc) acc) acc) =
      if entries.any (fun p => p.2.any (fun dd => p.1 == u' && dd == d'))
      then some DeviceKeyAlgorithm.signedCurve25519
      else alookup2 u' d' acc := by
  induction entries generalizing acc with
  | nil => simp
  | cons p t ih =>
    rw [List.foldl_cons, ih, List.any_cons, lookup2_ufcInnerFold]
    by_cases ht : t.any
        (fun p => p.2.any (fun dd => p.1 == u' && dd == d')) = true
    · simp [ht]
    · by_cases hd : p.2.any (fun dd => p.1 == u' && dd == d') = true
      · simp [ht, hd]
      · simp [ht, hd]

/-- Claim maps built by `missingMapInsert` have no empty device maps. -/
def wfClaimMap (mp : ClaimMap) : Prop := ∀ p ∈ mp, p.2 ≠ []

theorem wfClaimMap_missingMapInsert (u : UserId) (d : DeviceIdBox)
    (mp : ClaimMap) (h : wfClaimMap mp) :
    wfClaimMap (missingMapInsert u d mp) := by
  intro p hp
  rcases mem_ainsert p _ _ _ hp with rfl | hmem
  · exact ainsert_ne_nil _ _ _
  · exact h p hmem

theorem wfClaimMap_foldl {α : Type} (step : ClaimMap → α → ClaimMap)
    (hstep : ∀ acc x, wfClaimMap acc → wfClaimMap (step acc x))
    (l : List α) (acc : ClaimMap) (hacc : wfClaimMap acc) :
    wfClaimMap (l.foldl step acc) := by
  induction l generalizing acc with
  | nil => exact hacc
  | cons x t ih => exact ih _ (hstep _ _ hacc)

theorem wfClaimMap_missingMapOf (m : SessionManager) (users : List UserId) :
    wfClaimMap (missingMapOf m users) := by
  unfold missingMapOf
  apply wfClaimMap_foldl
  · intro acc p hacc
    apply wfClaimMap_foldl
    · intro acc' dd hacc'
      exact wfClaimMap_missingMapInsert _ _ _ hacc'
    · exact hacc
  · apply wfClaimMap_foldl
    · intro acc uid hacc
      apply wfClaimMap_foldl
      · intro acc' p hacc'
        by_cases hneed : deviceNeedsClaim m p.2 = true
        · rw [if_pos hneed]
          exact wfClaimMap_missingMapInsert _ _ _ hacc'
        · rw [if_neg hneed]
          exact hacc'
      · exact hacc
    · intro p hp
      exact absurd hp (List.not_mem_nil p)

/-- A non-empty well-formed claim map has a successful nested lookup. -/
theorem exists_lookup2_of_ne_nil (mp : ClaimMap) (hwf : wfClaimMap mp)
    (h : mp ≠ []) : ∃ u d a, alookup2 u d mp = some a := by
  rcases mp with _ | ⟨⟨u0, inner⟩, rest⟩
  · exact absurd rfl h
  · have hinner : inner ≠ [] := hwf (u0, inner) (List.mem_cons_self _ _)
    rcases inner with _ | ⟨⟨d0, a0⟩, irest⟩
    · exact absurd rfl hinner
    · exact ⟨u0, d0, a0, by simp [alookup2]⟩

/-- The claim condition of the specification: the device belongs to a
listed user, has a curve25519 key and no stored Olm session for it
(`deviceNeedsClaim`, see `deviceNeedsClaim_iff`), or the pair is in the
`users_for_key_claim` map. -/
def needsKeyClaim (m : SessionManager) (users : List UserId) (u : UserId)
    (d : DeviceIdBox) : Prop :=
  (u ∈ users ∧ ∃ dev, (d, dev) ∈ m.store.get_readonly_devices u ∧
    deviceNeedsClaim m dev = true) ∨
  (∃ p ∈ m.users_for_key_claim, p.1 = u ∧ d ∈ p.2)

/-- `deviceNeedsClaim` spelt out: the device has a curve25519 key and
the store has no session bucket (or an empty one) for that sender
key. -/
theorem deviceNeedsClaim_iff (m : SessionManager) (dev : ReadOnlyDevice) :
    deviceNeedsClaim m dev = true ↔
      ∃ k, dev.curve25519_key = some k ∧
        (m.store.get_sessions k = none ∨ m.store.get_sessions k = some []) := by
  rcases hkey : dev.curve25519_key with _ | k
  · simp [deviceNeedsClaim, hkey]
  · rcases hs : m.store.get_sessions k with _ | l
    · simp [deviceNeedsClaim, hkey, hs]
    · simp [deviceNeedsClaim, hkey, hs, List.isEmpty_iff]

/-- The Bool condition of the user scan matches the spec condition. -/
theorem anyScan_iff (m : SessionManager) (users : List UserId) (u : UserId)
    (d : DeviceIdBox) :
    (users.any (fun uid => (m.store.get_readonly_devices uid).any
        (fun p => deviceNeedsClaim m p.2 && (uid == u && p.1 == d))) = true) ↔
      (u ∈ users ∧ ∃ dev, (d, dev) ∈ m.store.get_readonly_devices u ∧
        deviceNeedsClaim m dev = true) := by
  simp only [List.any_eq_true, Bool.and_eq_true, beq_iff_eq]
  constructor
  · rintro ⟨uid, huid, p, hp, hneed, hu, hd⟩
    subst hu
    refine ⟨huid, p.2, ?_, hneed⟩
    rw [← hd]
    exact hp
  · rintro ⟨hu, dev, hdev, hneed⟩
    exact ⟨u, hu, (d, dev), hdev, hneed, rfl, rfl⟩

/-- The Bool condition of the `users_for_key_claim` merge matches the
spec condition. -/
theorem anyUfc_iff (entries : List (UserId × List DeviceIdBox))
    (u : UserId) (d : DeviceIdBox) :
    (entries.any (fun p => p.2.any (fun dd => p.1 == u && dd == d)) = true) ↔
      ∃ p ∈ entries, p.1 = u ∧ d ∈ p.2 := by
  simp only [List.any_eq_true, Bool.and_eq_true, beq_iff_eq]
  constructor
  · rintro ⟨p, hp, dd, hdd, hpu, hddd⟩
    subst hddd
    exact ⟨p, hp, hpu, hdd⟩
  · rintro ⟨p, hp, hpu, hd⟩
    exact ⟨p, hp, d, hd, hpu, rfl⟩

/-- The nested lookup in the combined claim map, in closed form. -/
theorem lookup2_missingMapOf (m : SessionManager) (users : List UserId)
    (u : UserId) (d : DeviceIdBox) :
    alookup2 u d (missingMapOf m users) =
      if (m.users_for_key_claim.any
            (fun p => p.2.any (fun dd => p.1 == u && dd == d)) ||
          users.any (fun uid => (m.store.get_readonly_devices uid).any
            (fun p => deviceNeedsClaim m p.2 && (uid == u && p.1 == d))))
      then some DeviceKeyAlgorithm.signedCurve25519 else none := by
  unfold missingMapOf
  rw [lookup2_ufcFold, lookup2_userScanFold]
  by_cases h2 : m.users_for_key_claim.any
      (fun p => p.2.any (fun dd => p.1 == u && dd == d)) = true
  · simp [h2]
  · have h2' : m.users_for_key_claim.any
        (fun p => p.2.any (fun dd => p.1 == u && dd == d)) = false := by
      revert h2
      cases m.users_for_key_claim.any
        (fun p => p.2.any (fun dd => p.1 == u && dd == d))
      · intro _; rfl
      · intro hcon; exact absurd rfl hcon
    by_cases h1 : users.any (fun uid => (m.store.get_readonly_devices uid).any
        (fun p => deviceNeedsClaim m p.2 && (uid == u && p.1 == d))) = true
    · simp [h2', h1]
    · have h1' : users.any (fun uid =>
          (m.store.get_readonly_devices uid).any
            (fun p => deviceNeedsClaim m p.2 && (uid == u && p.1 == d))) =
          false := by
        revert h1
        cases users.any (fun uid => (m.store.get_readonly_devices uid).any
          (fun p => deviceNeedsClaim m p.2 && (uid == u && p.1 == d)))
        · intro _; rfl
        · intro hcon; exact absurd rfl hcon
      simp [h2', h1', alookup2]

/-- The combined claim condition in Bool form. -/
theorem needsKeyClaim_iff_bools (m : SessionManager) (users : List UserId)
    (u : UserId) (d : DeviceIdBox) :
    needsKeyClaim m users u d ↔
      (m.users_for_key_claim.any
          (fun p => p.2.any (fun dd => p.1 == u && dd == d)) ||
        users.any (fun uid => (m.store.get_readonly_devices uid).any
          (fun p => deviceNeedsClaim m p.2 && (uid == u && p.1 == d)))) =
        true := by
  rw [Bool.or_eq_true, anyScan_iff, anyUfc_iff, needsKeyClaim, or_comm]

/-- Nested lookup in the combined claim map against the claim
condition. -/
theorem lookup2_missingMapOf_iff (m : SessionManager) (users : List UserId)
    (u : UserId) (d : DeviceIdBox) :
    (alookup2 u d (missingMapOf m users) =
        some DeviceKeyAlgorithm.signedCurve25519 ↔
      needsKeyClaim m users u d) ∧
    (alookup2 u d (missingMapOf m users) = none ↔
      ¬ needsKeyClaim m users u d) := by
  rw [lookup2_missingMapOf, needsKeyClaim_iff_bools]
  by_cases hb : (m.users_for_key_claim.any
        (fun p => p.2.any (fun dd => p.1 == u && dd == d)) ||
      users.any (fun uid => (m.store.get_readonly_devices uid).any
        (fun p => deviceNeedsClaim m p.2 && (uid == u && p.1 == d)))) = true
  · simp [hb]
  · simp [hb]

/-- C5: `get_missing_sessions` returns `None` exactly when no
user/device pair satisfies the claim condition (each device of a listed
user with a curve25519 key but no stored Olm session, merged
unconditionally with `users_for_key_claim`); otherwise it returns the
passed-in fresh request id and a request with the 10-second timeout
whose claim map contains exactly the pairs satisfying the condition,
each under algorithm `signed_curve25519`. -/
theorem get_missing_sessions_spec (m : SessionManager) (users : List UserId)
    (rid : Uuid) :
    (m.get_missing_sessions users rid = none ↔
      ∀ u d, ¬ needsKeyClaim m users u d) ∧
    (∀ rid' req, m.get_missing_sessions users rid = some (rid', req) →
      rid' = rid ∧ req.timeout = some KEY_CLAIM_TIMEOUT ∧
      ∀ u d,
        (alookup2 u d req.one_time_keys =
            some DeviceKeyAlgorithm.signedCurve25519 ↔
          needsKeyClaim m users u d) ∧
        (alookup2 u d req.one_time_keys = none ↔
          ¬ needsKeyClaim m users u d)) := by
  constructor
  · constructor
    · intro hnone u d
      by_cases hemp : (missingMapOf m users).isEmpty = true
      · have hnil : missingMapOf m users = [] := List.isEmpty_iff.mp hemp
        have := (lookup2_missingMapOf_iff m users u d).2.mp
          (by rw [hnil]; simp [alookup2])
        exact this
      · rw [SessionManager.get_missing_sessions, if_neg hemp] at hnone
        exact absurd hnone (by simp)
    · intro hall
      have hnil : missingMapOf m users = [] := by
        by_contra hne
        obtain ⟨u, d, a, hlook⟩ := exists_lookup2_of_ne_nil _
          (wfClaimMap_missingMapOf m users) hne
        rw [lookup2_missingMapOf] at hlook
        by_cases hb : (m.users_for_key_claim.any
              (fun p => p.2.any (fun dd => p.1 == u && dd == d)) ||
            users.any (fun uid => (m.store.get_readonly_devices uid).any
              (fun p => deviceNeedsClaim m p.2 &&
                (uid == u && p.1 == d)))) = true
        · exact hall u d ((needsKeyClaim_iff_bools m users u d).mpr hb)
        · rw [if_neg hb] at hlook
          exact absurd hlook (by simp)
      rw [SessionManager.get_missing_sessions,
        if_pos (List.isEmpty_iff.mpr hnil)]
  · intro rid' req hsome
    by_cases hemp : (missingMapOf m users).isEmpty = true
    · rw [SessionManager.get_missing_sessions, if_pos hemp] at hsome
      exact absurd hsome (by simp)
    · rw [SessionManager.get_missing_sessions, if_neg hemp] at hsome
      simp only [Option.some.injEq, Prod.mk.injEq] at hsome
      obtain ⟨hrid, hreq⟩ := hsome
      subst hrid
      refine ⟨rfl, ?_, ?_⟩
      · rw [← hreq]
      · intro u d
        rw [← hreq]
        exact lookup2_missingMapOf_iff m users u d

/-- Concrete manager for the claim witness: Bob's device has a curve key
but no stored sessions, and Carol's device sits in
`users_for_key_claim`. -/
def claimManager : SessionManager :=
  { store :=
      { devices := [("@bob:example.org", [("BOBDEVICE", bobDevice)])]
        sessions := [] }
    users_for_key_claim := [("@carol:example.org", ["CAROLDEV"])]
    wedged_devices := []
    outgoing_to_device_requests := [] }

/-- The request `get_missing_sessions` produces for `claimManager`. -/
def claimReq : KeysClaimRequest :=
  { one_time_keys :=
      [("@bob:example.org",
          [("BOBDEVICE", DeviceKeyAlgorithm.signedCurve25519)]),
        ("@carol:example.org",
          [("CAROLDEV", DeviceKeyAlgorithm.signedCurve25519)])]
    timeout := some KEY_CLAIM_TIMEOUT }

/-- Witness for `get_missing_sessions_spec` at a concrete manager and
request. -/
theorem get_missing_sessions_spec_witness :
    claimReq.timeout = some KEY_CLAIM_TIMEOUT ∧
    (alookup2 "@bob:example.org" "BOBDEVICE" claimReq.one_time_keys =
        some DeviceKeyAlgorithm.signedCurve25519 ↔
      needsKeyClaim claimManager ["@bob:example.org"] "@bob:example.org"
        "BOBDEVICE") ∧
    (alookup2 "@dan:example.org" "DANDEV" claimReq.one_time_keys = none ↔
      ¬ needsKeyClaim claimManager ["@bob:example.org"] "@dan:example.org"
        "DANDEV") :=
  ⟨(((get_missing_sessions_spec claimManager ["@bob:example.org"] 42).2
      42 claimReq (by rfl)).2.1),
    ((((get_missing_sessions_spec claimManager ["@bob:example.org"] 42).2
      42 claimReq (by rfl)).2.2 "@bob:example.org" "BOBDEVICE").1),
    ((((get_missing_sessions_spec claimManager ["@bob:example.org"] 42).2
      42 claimReq (by rfl)).2.2 "@dan:example.org" "DANDEV").2)⟩

/-! ### Key-claim responses (`receive_keys_claim_response`)

The pieces of this flow living outside `src/` are modelled from the
specification and marked as such: `Account::create_outbound_session`
(the Olm session construction, `olm/account.rs`) and the gossip
machine's `retry_keyshare` / `collect_incoming_key_requests`
(`gossiping/machine.rs`). -/

/-- The signed one-time-key map claimed for one device (opaque JSON
entries). -/
abbrev KeyMap := List (String × String)

structure KeysClaimResponse where
  one_time_keys : List (UserId × List (DeviceIdBox × KeyMap))
deriving DecidableEq, Repr

/-- Modelled from the spec: `Account::create_outbound_session`
(`olm/account.rs`, not under `src/`).  Per §4.4 it creates "an outbound
Olm session from the signed one-time key", with per-device, non-fatal
failure; the boolean oracle `session_created` decides crypto-level
success, and a created Olm session is indexed under the device's
curve25519 sender key with the current creation instant. -/
structure Account where
  session_created : UserId → DeviceIdBox → KeyMap → Bool

def Account.create_outbound_session (acct : Account) (now : Nat)
    (device : ReadOnlyDevice) (key_map : KeyMap) : Option Session :=
  match device.curve25519_key with
  | none => none
  | some k =>
    if acct.session_created device.user_id device.device_id key_map then
      some { sender_key := k, creation_time := now }
    else none

/-- Modelled from the spec: the gossip machine's
`collect_incoming_key_requests` (`gossiping/machine.rs`, not under
`src/`), which serves deferred inbound key requests (§4.7) and may
create new Olm sessions for the caller to save; it does not touch
`users_for_key_claim`. -/
structure GossipMachine where
  collected_sessions : List Session

/-- Modelled from the spec: `GossipMachine::retry_keyshare`
(`gossiping/machine.rs`, not under `src/`).  §4.4 calls it "to retry any
key-shares blocked on this device" once an Olm session exists; the
device then no longer awaits an automatic key claim, so its entry leaves
the shared `users_for_key_claim` map — this is what makes the spec's
claim round-trip hold (after a response containing device `D`, a
subsequent `get_missing_sessions` does not include `D`). -/
def retry_keyshare (user_id : UserId) (device_id : DeviceIdBox)
    (ufc : List (UserId × List DeviceIdBox)) :
    List (UserId × List DeviceIdBox) :=
  match alookup user_id ufc with
  | some ds => ainsert user_id (sremove device_id ds) ufc
  | none => ufc

/-- `SessionManager::check_if_unwedged`: drop the device from
`wedged_devices`; if it was wedged, Olm-encrypt an `m.dummy` event for
it (when its device record exists) and queue the outgoing request. -/
def SessionManager.check_if_unwedged (m : SessionManager)
    (user_id : UserId) (device_id : DeviceIdBox) : SessionManager :=
  match alookup user_id m.wedged_devices with
  | some ds =>
    if device_id ∈ ds then
      match m.store.get_readonly_device user_id device_id with
      | some _ =>
        { m with
          wedged_devices :=
            ainsert user_id (sremove device_id ds) m.wedged_devices
          outgoing_to_device_requests :=
            m.outgoing_to_device_requests ++ [(user_id, device_id)] }
      | none =>
        { m with wedged_devices :=
            ainsert user_id (sremove device_id ds) m.wedged_devices }
    else m
  | none => m

/-- One `(device_id, key_map)` entry of a key-claim response: fetch the
device record, create the outbound Olm session, push it onto the pending
batch, retry blocked key-shares and un-wedge; unknown devices and failed
session creations are logged and skipped. -/
def processClaimedDevice (acct : Account) (now : Nat) (user_id : UserId)
    (st : SessionManager × List Session) (p : DeviceIdBox × KeyMap) :
    SessionManager × List Session :=
  match st.1.store.get_readonly_device user_id p.1 with
  | none => st
  | some device =>
    match acct.create_outbound_session now device p.2 with
    | none => st
    | some session =>
      let m' := { st.1 with
        users_for_key_claim :=
          retry_keyshare user_id p.1 st.1.users_for_key_claim }
      (m'.check_if_unwedged user_id p.1, st.2 ++ [session])

/-- Saving a batch of Olm sessions (`save_changes`): append each to its
sender-key bucket. -/
def Store.save_sessions (st : Store) (sessions : List Session) : Store :=
  { st with
    sessions := sessions.foldl
      (fun acc s =>
        ainsert s.sender_key (((alookup s.sender_key acc).getD []) ++ [s])
          acc)
      st.sessions }

/-- `SessionManager::receive_keys_claim_response`: process every claimed
one-time key, persist the new sessions via `save_changes`, then let the
gossip machine collect deferred incoming key requests and persist the
sessions that produced. -/
def SessionManager.receive_keys_claim_response (m : SessionManager)
    (acct : Account) (gossip : GossipMachine)
    (response : KeysClaimResponse) (now : Nat) : SessionManager :=
  let st := response.one_time_keys.foldl
    (fun st q => q.2.foldl (processClaimedDevice acct now q.1) st)
    (m, [])
  let m' := { st.1 with store := st.1.store.save_sessions st.2 }
  { m' with store := m'.store.save_sessions gossip.collected_sessions }

/-- Keys of `ainsert` are the inserted key or old keys. -/
theorem mem_keys_ainsert {K V : Type} [DecidableEq K] (x k : K) (v : V)
    (l : List (K × V)) (hx : x ∈ (ainsert k v l).map Prod.fst) :
    x = k ∨ x ∈ l.map Prod.fst := by
  obtain ⟨p, hp, rfl⟩ := List.mem_map.mp hx
  rcases mem_ainsert p _ _ _ hp with rfl | h
  · exact Or.inl rfl
  · exact Or.inr (List.mem_map.mpr ⟨p, h, rfl⟩)

/-- `ainsert` keeps the keys of a map duplicate-free. -/
theorem keys_nodup_ainsert {K V : Type} [DecidableEq K] (k : K) (v : V)
    (l : List (K × V)) (h : (l.map Prod.fst).Nodup) :
    ((ainsert k v l).map Prod.fst).Nodup := by
  induction l with
  | nil => simp [ainsert]
  | cons hd tl ih =>
    obtain ⟨k', v'⟩ := hd
    simp only [List.map_cons, List.nodup_cons] at h
    by_cases hk : k' = k
    · subst hk
      rw [ainsert, if_pos rfl]
      simp only [List.map_cons, List.nodup_cons]
      exact h
    · rw [ainsert, if_neg hk]
      simp only [List.map_cons, List.nodup_cons]
      refine ⟨?_, ih h.2⟩
      intro hcon
      rcases mem_keys_ainsert _ _ _ _ hcon with rfl | hmem
      · exact hk rfl
      · exact h.1 hmem

/-- With duplicate-free keys, entries of `ainsert k v l` are the new
binding or old entries with a different key. -/
theorem mem_ainsert_nodup {K V : Type} [DecidableEq K] (p : K × V)
    (k : K) (v : V) (l : List (K × V)) (hnd : (l.map Prod.fst).Nodup)
    (hp : p ∈ ainsert k v l) : p = (k, v) ∨ (p ∈ l ∧ p.1 ≠ k) := by
  induction l with
  | nil =>
    left
    simpa [ainsert] using hp
  | cons hd tl ih =>
    obtain ⟨k', v'⟩ := hd
    simp only [List.map_cons, List.nodup_cons] at hnd
    by_cases h : k' = k
    · subst h
      rw [ainsert, if_pos rfl] at hp
      rcases List.mem_cons.mp hp with rfl | hmem
      · exact Or.inl rfl
      · right
        refine ⟨List.mem_cons_of_mem _ hmem, fun hpk => ?_⟩
        exact hnd.1 (hpk ▸ List.mem_map.mpr ⟨p, hmem, rfl⟩)
    · rw [ainsert, if_neg h] at hp
      rcases List.mem_cons.mp hp with rfl | hmem
      · exact Or.inr ⟨List.mem_cons_self _ _, h⟩
      · rcases ih hnd.2 hmem with h1 | ⟨h1, h2⟩
        · exact Or.inl h1
        · exact Or.inr ⟨List.mem_cons_of_mem _ h1, h2⟩

/-- A failed `alookup` means no entry carries the key. -/
theorem alookup_none_keys {K V : Type} [DecidableEq K] (k : K)
    (l : List (K × V)) (h : alookup k l = none) :
    ∀ p ∈ l, p.1 ≠ k := by
  induction l with
  | nil => intro p hp; exact absurd hp (List.not_mem_nil p)
  | cons hd tl ih =>
    obtain ⟨k', v'⟩ := hd
    intro p hp
    by_cases hk : k' = k
    · rw [alookup_cons, if_pos hk] at h
      exact absurd h (by simp)
    · rw [alookup_cons, if_neg hk] at h
      rcases List.mem_cons.mp hp with rfl | hmem
      · exact hk
      · exact ih h p hmem

/-- `retry_keyshare` removes the pair from the claim map. -/
theorem retry_keyshare_establish (u : UserId) (d : DeviceIdBox)
    (ufc : List (UserId × List DeviceIdBox))
    (hnd : (ufc.map Prod.fst).Nodup) :
    ∀ p ∈ retry_keyshare u d ufc, p.1 = u → d ∉ p.2 := by
  unfold retry_keyshare
  rcases hl : alookup u ufc with _ | ds
  · intro p hp hpu
    exact absurd hpu (alookup_none_keys u ufc hl p hp)
  · intro p hp hpu
    rcases mem_ainsert_nodup p _ _ _ hnd hp with rfl | ⟨hmem, hne⟩
    · intro hd
      have := (List.mem_filter.mp hd).2
      simp at this
    · exact absurd hpu hne

/-- `retry_keyshare` never re-adds an absent pair. -/
theorem retry_keyshare_absent (u : UserId) (d : DeviceIdBox)
    (u' : UserId) (d' : DeviceIdBox)
    (ufc : List (UserId × List DeviceIdBox))
    (hnd : (ufc.map Prod.fst).Nodup)
    (habs : ∀ p ∈ ufc, p.1 = u → d ∉ p.2) :
    ∀ p ∈ retry_keyshare u' d' ufc, p.1 = u → d ∉ p.2 := by
  unfold retry_keyshare
  rcases hl : alookup u' ufc with _ | ds
  · exact habs
  · intro p hp hpu
    rcases mem_ainsert_nodup p _ _ _ hnd hp with rfl | ⟨hmem, hne⟩
    · intro hd
      have hds : d ∈ ds := (List.mem_filter.mp hd).1
      exact habs (u', ds) (alookup_mem _ _ _ hl) (by simpa using hpu) hds
    · exact habs p hmem hpu

/-- `retry_keyshare` keeps the claim-map keys duplicate-free. -/
theorem retry_keyshare_keys_nodup (u : UserId) (d : DeviceIdBox)
    (ufc : List (UserId × List DeviceIdBox))
    (hnd : (ufc.map Prod.fst).Nodup) :
    ((retry_keyshare u d ufc).map Prod.fst).Nodup := by
  unfold retry_keyshare
  rcases alookup u ufc with _ | ds
  · exact hnd
  · exact keys_nodup_ainsert _ _ _ hnd

/-- `check_if_unwedged` touches neither `users_for_key_claim` nor the
store. -/
theorem check_if_unwedged_frame (m : SessionManager) (u : UserId)
    (d : DeviceIdBox) :
    (m.check_if_unwedged u d).users_for_key_claim = m.users_for_key_claim ∧
    (m.check_if_unwedged u d).store = m.store := by
  rcases h : alookup u m.wedged_devices with _ | ds
  · simp [SessionManager.check_if_unwedged, h]
  · by_cases hd : d ∈ ds
    · rcases hdev : m.store.get_readonly_device u d with _ | dev <;>
        simp [SessionManager.check_if_unwedged, h, hd, hdev]
    · simp [SessionManager.check_if_unwedged, h, hd]

/-- Fold preservation of a pair of invariants. -/
theorem foldl_pres {α σ : Type} (step : σ → α → σ) (P Q : σ → Prop)
    (hP : ∀ st a, P st → P (step st a))
    (hQ : ∀ st a, P st → Q st → Q (step st a)) :
    ∀ (l : List α) (st : σ), P st → Q st →
      P (l.foldl step st) ∧ Q (l.foldl step st) := by
  intro l
  induction l with
  | nil => exact fun st hp hq => ⟨hp, hq⟩
  | cons a t ih =>
    intro st hp hq
    exact ih _ (hP _ _ hp) (hQ _ _ hp hq)

/-- Fold establishment: an element of the list establishes `Q`, every
step preserves it. -/
theorem foldl_est {α σ : Type} (step : σ → α → σ) (P Q : σ → Prop)
    (hP : ∀ st a, P st → P (step st a))
    (hQ : ∀ st a, P st → Q st → Q (step st a))
    (x : α) (hx : ∀ st, P st → Q (step st x)) :
    ∀ (l : List α) (st : σ), P st → x ∈ l →
      P (l.foldl step st) ∧ Q (l.foldl step st) := by
  intro l
  induction l with
  | nil =>
    intro st hp hmem
    exact absurd hmem (List.not_mem_nil x)
  | cons a t ih =>
    intro st hp hmem
    rcases List.mem_cons.mp hmem with rfl | hmem
    · exact foldl_pres step P Q hP hQ t _ (hP _ _ hp) (hx _ hp)
    · exact ih _ (hP _ _ hp) hmem

/-- The invariant threaded through the response fold: the store is
untouched and the claim-map keys stay duplicate-free. -/
def claimFoldInv (store0 : Store) (st : SessionManager × List Session) :
    Prop :=
  st.1.store = store0 ∧ (st.1.users_for_key_claim.map Prod.fst).Nodup

/-- What processing device `(u, d)` establishes: its new session (under
sender key `k`) sits in the pending batch, and the pair is gone from
`users_for_key_claim`. -/
def claimFoldGoal (u : UserId) (d : DeviceIdBox) (k : String)
    (st : SessionManager × List Session) : Prop :=
  (∃ s ∈ st.2, s.sender_key = k) ∧
  (∀ p ∈ st.1.users_for_key_claim, p.1 = u → d ∉ p.2)

theorem processClaimedDevice_inv (acct : Account) (now : Nat)
    (uid : UserId) (p : DeviceIdBox × KeyMap) (store0 : Store)
    (st : SessionManager × List Session) (h : claimFoldInv store0 st) :
    claimFoldInv store0 (processClaimedDevice acct now uid st p) := by
  rcases hdev : st.1.store.get_readonly_device uid p.1 with _ | device
  · simp only [processClaimedDevice, hdev]
    exact h
  · rcases hcs : acct.create_outbound_session now device p.2 with _ | session
    · simp only [processClaimedDevice, hdev, hcs]
      exact h
    · simp only [processClaimedDevice, hdev, hcs]
      constructor
      · rw [(check_if_unwedged_frame _ _ _).2]
        exact h.1
      · rw [(check_if_unwedged_frame _ _ _).1]
        exact retry_keyshare_keys_nodup _ _ _ h.2

theorem processClaimedDevice_goal (acct : Account) (now : Nat)
    (uid : UserId) (p : DeviceIdBox × KeyMap) (store0 : Store)
    (u : UserId) (d : DeviceIdBox) (k : String)
    (st : SessionManager × List Session) (hinv : claimFoldInv store0 st)
    (hg : claimFoldGoal u d k st) :
    claimFoldGoal u d k (processClaimedDevice acct now uid st p) := by
  rcases hdev : st.1.store.get_readonly_device uid p.1 with _ | device
  · simp only [processClaimedDevice, hdev]
    exact hg
  · rcases hcs : acct.create_outbound_session now device p.2 with _ | session
    · simp only [processClaimedDevice, hdev, hcs]
      exact hg
    · simp only [processClaimedDevice, hdev, hcs]
      constructor
      · obtain ⟨s, hs, hsk⟩ := hg.1
        exact ⟨s, List.mem_append_left _ hs, hsk⟩
      · rw [(check_if_unwedged_frame _ _ _).1]
        exact retry_keyshare_absent u d uid p.1 _ hinv.2 hg.2

theorem processClaimedDevice_est (acct : Account) (now : Nat)
    (store0 : Store) (u : UserId) (d : DeviceIdBox) (key_map : KeyMap)
    (dev : ReadOnlyDevice) (k : String)
    (hdev : store0.get_readonly_device u d = some dev)
    (hkey : dev.curve25519_key = some k)
    (hsucc : acct.session_created dev.user_id dev.device_id key_map = true)
    (st : SessionManager × List Session) (hinv : claimFoldInv store0 st) :
    claimFoldGoal u d k (processClaimedDevice acct now u st (d, key_map)) := by
  have hdev' : st.1.store.get_readonly_device u d = some dev := by
    rw [hinv.1]; exact hdev
  have hcs : acct.create_outbound_session now dev key_map =
      some { sender_key := k, creation_time := now } := by
    unfold Account.create_outbound_session
    simp only [hkey, hsucc, if_true]
  simp only [processClaimedDevice, hdev', hcs]
  constructor
  · exact ⟨{ sender_key := k, creation_time := now }, by simp, rfl⟩
  · rw [(check_if_unwedged_frame _ _ _).1]
    exact retry_keyshare_establish u d _ hinv.2

/-- A store bucket holding at least one session for a sender key. -/
def bucketNonempty (k : String) (st : Store) : Prop :=
  ∃ l, alookup k st.sessions = some l ∧ l ≠ []

/-- `save_sessions` makes (or keeps) the bucket of `k` non-empty when it
already is, or when the batch contains a session for `k`. -/
theorem save_sessions_bucket (st : Store) (sessions : List Session)
    (k : String)
    (h : bucketNonempty k st ∨ ∃ s ∈ sessions, s.sender_key = k) :
    bucketNonempty k (st.save_sessions sessions) := by
  have hpres : ∀ (acc : List (String × List Session)) (s : Session),
      (fun _ => True) acc →
      (∃ l, alookup k acc = some l ∧ l ≠ []) →
      (∃ l, alookup k
          (ainsert s.sender_key
            (((alookup s.sender_key acc).getD []) ++ [s]) acc) = some l ∧
        l ≠ []) := by
    intro acc s _ hq
    by_cases hk : s.sender_key = k
    · subst hk
      exact ⟨((alookup s.sender_key acc).getD []) ++ [s],
        alookup_ainsert _ _ _, by simp⟩
    · obtain ⟨l, hl, hlne⟩ := hq
      exact ⟨l, by rw [alookup_ainsert_ne _ _ _ _ hk]; exact hl, hlne⟩
  rcases h with hpre | ⟨s0, hs0, hk0⟩
  · exact (foldl_pres _ (fun _ => True)
      (fun acc => ∃ l, alookup k acc = some l ∧ l ≠ [])
      (fun _ _ _ => trivial) hpres sessions st.sessions trivial hpre).2
  · refine (foldl_est _ (fun _ => True)
      (fun acc => ∃ l, alookup k acc = some l ∧ l ≠ [])
      (fun _ _ _ => trivial) hpres s0 ?_ sessions st.sessions trivial hs0).2
    intro acc _
    subst hk0
    exact ⟨((alookup s0.sender_key acc).getD []) ++ [s0],
      alookup_ainsert _ _ _, by simp⟩

/-- C6: after a key-claim response delivers a one-time key for a known
device `D` (with curve25519 key `k`) and an Olm session for `D` is
successfully created, an immediately subsequent `get_missing_sessions`
(for any user list) does not list `D` in its claim map: the new session
suppresses the missing-session scan and `retry_keyshare` has removed `D`
from `users_for_key_claim`.  (A `mark_device_as_wedged` in between would
re-add `D`; no operation is interposed here.) -/
theorem claim_response_roundtrip
    (m : SessionManager) (acct : Account) (gossip : GossipMachine)
    (resp : KeysClaimResponse) (now : Nat) (u : UserId) (d : DeviceIdBox)
    (udevs : List (DeviceIdBox × KeyMap)) (key_map : KeyMap)
    (dev : ReadOnlyDevice) (k : String)
    (hnd : (m.users_for_key_claim.map Prod.fst).Nodup)
    (hud : (u, udevs) ∈ resp.one_time_keys)
    (hdk : (d, key_map) ∈ udevs)
    (hdev : m.store.get_readonly_device u d = some dev)
    (hkey : dev.curve25519_key = some k)
    (hsucc : acct.session_created dev.user_id dev.device_id key_map = true)
    (huniq : ∀ dev', (d, dev') ∈ m.store.get_readonly_devices u →
      dev' = dev) :
    ∀ users rid rid' req,
      (m.receive_keys_claim_response acct gossip resp
          now).get_missing_sessions users rid = some (rid', req) →
      alookup2 u d req.one_time_keys = none := by
  intro users rid rid' req hsome
  have innerP : ∀ (q : UserId × List (DeviceIdBox × KeyMap))
      (st : SessionManager × List Session), claimFoldInv m.store st →
      claimFoldInv m.store
        (q.2.foldl (processClaimedDevice acct now q.1) st) := by
    intro q st hp
    exact (foldl_pres (processClaimedDevice acct now q.1)
      (claimFoldInv m.store) (fun _ => True)
      (fun st p hp => processClaimedDevice_inv acct now q.1 p m.store st hp)
      (fun _ _ _ _ => trivial) q.2 st hp trivial).1
  have innerQ : ∀ (q : UserId × List (DeviceIdBox × KeyMap))
      (st : SessionManager × List Session), claimFoldInv m.store st →
      claimFoldGoal u d k st →
      claimFoldGoal u d k
        (q.2.foldl (processClaimedDevice acct now q.1) st) := by
    intro q st hp hq
    exact (foldl_pres (processClaimedDevice acct now q.1)
      (claimFoldInv m.store) (claimFoldGoal u d k)
      (fun st p hp => processClaimedDevice_inv acct now q.1 p m.store st hp)
      (fun st p hp hq =>
        processClaimedDevice_goal acct now q.1 p m.store u d k st hp hq)
      q.2 st hp hq).2
  have hfold := foldl_est
    (fun st q => q.2.foldl (processClaimedDevice acct now q.1) st)
    (claimFoldInv m.store) (claimFoldGoal u d k)
    (fun st q hp => innerP q st hp)
    (fun st q hp hq => innerQ q st hp hq)
    (u, udevs)
    (fun st hp =>
      (foldl_est (processClaimedDevice acct now u)
        (claimFoldInv m.store) (claimFoldGoal u d k)
        (fun st p hp => processClaimedDevice_inv acct now u p m.store st hp)
        (fun st p hp hq =>
          processClaimedDevice_goal acct now u p m.store u d k st hp hq)
        (d, key_map)
        (fun st hp =>
          processClaimedDevice_est acct now m.store u d key_map dev k
            hdev hkey hsucc st hp)
        udevs st hp hdk).2)
    resp.one_time_keys (m, []) ⟨rfl, hnd⟩ hud
  obtain ⟨hinv, hgoal⟩ := hfold
  have hufc : ∀ p ∈ (m.receive_keys_claim_response acct gossip resp
      now).users_for_key_claim, p.1 = u → d ∉ p.2 := hgoal.2
  have hbucket : bucketNonempty k
      (m.receive_keys_claim_response acct gossip resp now).store := by
    apply save_sessions_bucket
    left
    apply save_sessions_bucket
    right
    exact hgoal.1
  have hdevices : (m.receive_keys_claim_response acct gossip resp
      now).store.devices = m.store.devices := by
    show (resp.one_time_keys.foldl
      (fun st q => q.2.foldl (processClaimedDevice acct now q.1) st)
      (m, [])).1.store.devices = m.store.devices
    rw [hinv.1]
  by_cases hemp : (missingMapOf (m.receive_keys_claim_response acct gossip
      resp now) users).isEmpty = true
  · rw [SessionManager.get_missing_sessions, if_pos hemp] at hsome
    exact absurd hsome (by simp)
  · rw [SessionManager.get_missing_sessions, if_neg hemp] at hsome
    simp only [Option.some.injEq, Prod.mk.injEq] at hsome
    rw [← hsome.2, lookup2_missingMapOf]
    have hb2 : (m.receive_keys_claim_response acct gossip resp
        now).users_for_key_claim.any
        (fun p => p.2.any (fun dd => p.1 == u && dd == d)) = false := by
      rcases Bool.eq_false_or_eq_true ((m.receive_keys_claim_response acct
          gossip resp now).users_for_key_claim.any
          (fun p => p.2.any (fun dd => p.1 == u && dd == d))) with hc | hc
      · obtain ⟨p, hp, hpu, hpd⟩ := (anyUfc_iff _ u d).mp hc
        exact absurd hpd (hufc p hp hpu)
      · exact hc
    have hb1 : users.any (fun uid =>
        ((m.receive_keys_claim_response acct gossip resp
            now).store.get_readonly_devices uid).any
          (fun p => deviceNeedsClaim
              (m.receive_keys_claim_response acct gossip resp now) p.2 &&
            (uid == u && p.1 == d))) = false := by
      rcases Bool.eq_false_or_eq_true (users.any (fun uid =>
          ((m.receive_keys_claim_response acct gossip resp
              now).store.get_readonly_devices uid).any
            (fun p => deviceNeedsClaim
                (m.receive_keys_claim_response acct gossip resp now) p.2 &&
              (uid == u && p.1 == d)))) with hc | hc
      · obtain ⟨hu, dev', hdev', hneed⟩ := (anyScan_iff _ users u d).mp hc
        have hsame : (m.receive_keys_claim_response acct gossip resp
            now).store.get_readonly_devices u =
            m.store.get_readonly_devices u := by
          unfold Store.get_readonly_devices
          rw [hdevices]
        rw [hsame] at hdev'
        have hdd : dev' = dev := huniq dev' hdev'
        subst hdd
        obtain ⟨k', hk', hmiss⟩ := (deviceNeedsClaim_iff _ _).mp hneed
        rw [hkey] at hk'
        obtain rfl : k = k' := by simpa using hk'
        obtain ⟨l, hl, hlne⟩ := hbucket
        rcases hmiss with hmiss | hmiss
        · rw [show (m.receive_keys_claim_response acct gossip resp
              now).store.get_sessions k = some l from hl] at hmiss
          exact absurd hmiss (by simp)
        · rw [show (m.receive_keys_claim_response acct gossip resp
              now).store.get_sessions k = some l from hl] at hmiss
          simp only [Option.some.injEq] at hmiss
          exact absurd hmiss hlne
      · exact hc
    simp [hb1, hb2]

/-- Concrete state for the claim round-trip witness: Bob's device is
both wedged and awaiting a key claim (as is Carol's), the response
delivers Bob's one-time key, and session creation succeeds. -/
def c6Manager : SessionManager :=
  { store :=
      { devices := [("@bob:example.org", [("BOBDEVICE", bobDevice)])]
        sessions := [] }
    users_for_key_claim :=
      [("@bob:example.org", ["BOBDEVICE"]),
        ("@carol:example.org", ["CAROLDEV"])]
    wedged_devices := [("@bob:example.org", ["BOBDEVICE"])]
    outgoing_to_device_requests := [] }

def c6Account : Account := { session_created := fun _ _ _ => true }

def c6Gossip : GossipMachine := { collected_sessions := [] }

def c6KeyMap : KeyMap := [("signed_curve25519:AAAAAQ", "onetimekey")]

def c6Resp : KeysClaimResponse :=
  { one_time_keys := [("@bob:example.org", [("BOBDEVICE", c6KeyMap)])] }

/-- After the response, only Carol still needs a key claim. -/
def c6Req : KeysClaimRequest :=
  { one_time_keys :=
      [("@carol:example.org",
          [("CAROLDEV", DeviceKeyAlgorithm.signedCurve25519)])]
    timeout := some KEY_CLAIM_TIMEOUT }

/-- Witness for `claim_response_roundtrip`: Bob's device is absent from
the claim request issued right after his one-time key arrived. -/
theorem claim_response_roundtrip_witness :
    alookup2 "@bob:example.org" "BOBDEVICE" c6Req.one_time_keys = none :=
  claim_response_roundtrip c6Manager c6Account c6Gossip c6Resp 50
    "@bob:example.org" "BOBDEVICE" [("BOBDEVICE", c6KeyMap)] c6KeyMap
    bobDevice "bobcurvekey"
    (by decide)
    (List.mem_singleton.mpr rfl)
    (List.mem_singleton.mpr rfl)
    (by rfl)
    (by rfl)
    (by rfl)
    (by
      intro dev' hmem
      rw [show c6Manager.store.get_readonly_devices "@bob:example.org" =
        [("BOBDEVICE", bobDevice)] from rfl] at hmem
      simpa using List.mem_singleton.mp hmem)
    ["@bob:example.org"] 7 7 c6Req (by rfl)

end MatrixSdkCrypto
